import Mathlib

/-!
# pghealthy: the `/healthz` handler of `main.go`

A shallow embedding of the health-check handler and of the two helpers
`checkTableExists` and `checkQuery`.

* The database handle `db` is a test double: a record of operations over a
  state `σ`, so that an answer may depend on everything asked before.
* A Go `error` is represented by its message (`err.Error()`), the only part of
  an error the handler uses.
* A scanned `interface{}` result is a value of an arbitrary type `ρ`: the
  handler stores and returns such values without inspecting them.  `Scalar` is
  the type of the values a driver produces.
* The `World` threads the double's state together with a log of the calls made,
  which is what call-count assertions read.
* `healthz` returns the status code and the `HealthResponse` handed to the JSON
  encoder; `serve` returns what the client receives, the body being empty when
  the encoder fails.
* The texts the handler builds or reads from its configuration (table names,
  queries, error messages) are strings of runes; a scanned string result is kept
  as its bytes.
* `log.Printf` output is not modelled.
-/

namespace PgHealthy

/-! ## Data model -/

/-- The struct `HealthResponse` (main.go, lines 19-23).  A nil slice and an
empty slice are both the empty list; an absent error is the empty string. -/
structure HealthResponse (ρ : Type) where
  Status : String
  Error : String
  Results : List ρ
deriving Repr, DecidableEq

/-- What the handler writes: the status code given to `WriteHeader` and the
value given to the JSON encoder. -/
structure Response (ρ : Type) where
  code : Nat
  body : HealthResponse ρ
deriving Repr, DecidableEq

/-- The constant `http.StatusOK`. -/
def StatusOK : Nat := 200

/-- The constant `http.StatusServiceUnavailable`. -/
def StatusServiceUnavailable : Nat := 503

/-- The calls recorded by the log: the two helpers of main.go and the
operations on the database handle. -/
inductive Event where
  | ping
  | checkTableExists (table : String)
  | prepare (sql : String)
  | stmtQueryRow (table : String)
  | stmtClose
  | checkQuery (query : String)
  | queryRow (query : String)
deriving Repr, DecidableEq

/-- The database handle as a test double over a state `σ`.
`pingContext` and `prepare` answer `some msg` on failure; the two row
operations stand for `QueryRowContext(...).Scan(...)` and answer either the
scanned value or the error message. -/
structure DB (σ ρ : Type) where
  pingContext : σ → Option String × σ
  prepare : String → σ → Option String × σ
  stmtQueryRowScan : String → σ → Except String Int × σ
  stmtClose : σ → σ
  queryRowScan : String → σ → Except String ρ × σ

/-- The state of the double and the log of calls so far. -/
structure World (σ : Type) where
  db : σ
  log : List Event

/-- Append one call to the log. -/
def World.record {σ : Type} (w : World σ) (e : Event) : World σ :=
  { db := w.db, log := w.log ++ [e] }

/-- The values read from the environment at start-up that the handler uses. -/
structure Config where
  tables : List String
  queries : List String
  exposeQueryResults : Bool
deriving Repr, DecidableEq

/-! ## Library functions used by main.go -/

/-- Go's `unicode.IsSpace`. -/
def isSpace (c : Char) : Bool :=
  c = '\t' || c = '\n' || c = Char.ofNat 0x0B || c = Char.ofNat 0x0C || c = '\r' || c = ' ' ||
  c = Char.ofNat 0x85 || c = Char.ofNat 0xA0 || c = Char.ofNat 0x1680 ||
  (0x2000 ≤ c.toNat && c.toNat ≤ 0x200A) ||
  c = Char.ofNat 0x2028 || c = Char.ofNat 0x2029 || c = Char.ofNat 0x202F ||
  c = Char.ofNat 0x205F || c = Char.ofNat 0x3000

/-- Go's `strings.TrimSpace`: leading and trailing white space removed. -/
def trimSpace (s : String) : String :=
  String.mk ((s.data.dropWhile isSpace).reverse.dropWhile isSpace).reverse

/-- The loop of Go's `strings.Split` for a non-empty separator: `skip` counts
the characters of a separator just found that are still to be passed over,
`cur` holds the current piece in reverse. -/
def splitLoop (sep : List Char) : Nat → List Char → List Char → List (List Char)
  | _, cur, [] => [cur.reverse]
  | skip + 1, cur, _ :: rest => splitLoop sep skip cur rest
  | 0, cur, c :: rest =>
    if sep.isPrefixOf (c :: rest) then
      cur.reverse :: splitLoop sep (sep.length - 1) [] rest
    else
      splitLoop sep 0 (c :: cur) rest

/-- Go's `strings.Split(s, sep)` for a non-empty separator: the pieces between
the occurrences of `sep`, found from the left and not overlapping. -/
def stringsSplit (s sep : String) : List String :=
  (splitLoop sep.data 0 [] s.data).map String.mk

/-- Go's `strings.Count(s, sep)` for a non-empty separator: the number of
occurrences of `sep`, found from the left and not overlapping. -/
def countLoop (sep : List Char) : Nat → List Char → Nat
  | _, [] => 0
  | skip + 1, _ :: rest => countLoop sep skip rest
  | 0, c :: rest =>
    if sep.isPrefixOf (c :: rest) then
      countLoop sep (sep.length - 1) rest + 1
    else
      countLoop sep 0 rest

/-- Go's `strings.Count(s, sep)`. -/
def stringsCount (s sep : String) : Nat :=
  countLoop sep.data 0 s.data

/-- Go's `strings.Join(parts, sep)`. -/
def stringsJoin (parts : List String) (sep : String) : String :=
  String.mk (List.intercalate sep.data (parts.map String.data))

/-! ## Configuration (main.go, lines 66-78) -/

/-- The table list read from `PG_HEALTHY_TABLES`. -/
def parseTables (tablesToCheck : String) : List String :=
  if tablesToCheck = "" then [] else stringsSplit tablesToCheck ","

/-- The flag read from `PG_HEALTHY_EXPOSE_QUERY_RESULTS`. -/
def parseExpose (exposeQueryResultsValue : String) : Bool :=
  exposeQueryResultsValue = "true" || exposeQueryResultsValue = "1"

/-- The query list read from `PG_HEALTHY_QUERIES`. -/
def parseQueries (customQueries : String) : List String :=
  if customQueries = "" then [] else stringsSplit customQueries ";;"

/-- The configuration built from the three environment values. -/
def loadConfig (tablesToCheck exposeQueryResultsValue customQueries : String) : Config :=
  { tables := parseTables tablesToCheck
    queries := parseQueries customQueries
    exposeQueryResults := parseExpose exposeQueryResultsValue }

/-! ## Operations on the handle, with logging -/

section Ops
variable {σ ρ : Type}

/-- The call `db.PingContext(ctx)`. -/
def dbPing (d : DB σ ρ) (w : World σ) : Option String × World σ :=
  ((d.pingContext w.db).1, { db := (d.pingContext w.db).2, log := w.log ++ [Event.ping] })

/-- The call `db.Prepare(sql)`. -/
def dbPrepare (d : DB σ ρ) (sql : String) (w : World σ) : Option String × World σ :=
  ((d.prepare sql w.db).1, { db := (d.prepare sql w.db).2, log := w.log ++ [Event.prepare sql] })

/-- The call `stmt.QueryRowContext(ctx, table).Scan(&count)`. -/
def dbStmtQueryRowScan (d : DB σ ρ) (table : String) (w : World σ) :
    Except String Int × World σ :=
  ((d.stmtQueryRowScan table w.db).1,
   { db := (d.stmtQueryRowScan table w.db).2, log := w.log ++ [Event.stmtQueryRow table] })

/-- The deferred call `stmt.Close()`. -/
def dbStmtClose (d : DB σ ρ) (w : World σ) : World σ :=
  { db := d.stmtClose w.db, log := w.log ++ [Event.stmtClose] }

/-- The call `db.QueryRowContext(ctx, query).Scan(&result)`. -/
def dbQueryRowScan (d : DB σ ρ) (query : String) (w : World σ) :
    Except String ρ × World σ :=
  ((d.queryRowScan query w.db).1,
   { db := (d.queryRowScan query w.db).2, log := w.log ++ [Event.queryRow query] })

/-! ## The helpers (main.go, lines 146-176) -/

/-- The statement text of `checkTableExists`. -/
def tableCountSQL : String :=
  "SELECT COUNT(*) FROM information_schema.tables WHERE table_name = $1"

/-- The function `checkTableExists`: `none` is a nil error. -/
def checkTableExists (d : DB σ ρ) (table : String) (w : World σ) : Option String × World σ :=
  match dbPrepare d tableCountSQL (w.record (Event.checkTableExists table)) with
  | (some err, w1) => (some ("preparing table check failed: " ++ err), w1)
  | (none, w1) =>
    match dbStmtQueryRowScan d table w1 with
    | (Except.error err, w2) => (some ("table check failed: " ++ err), dbStmtClose d w2)
    | (Except.ok count, w2) =>
      if count = 0 then
        (some ("table '" ++ table ++ "' not found"), dbStmtClose d w2)
      else
        (none, dbStmtClose d w2)

/-- The function `checkQuery`. -/
def checkQuery (d : DB σ ρ) (query : String) (w : World σ) : Except String ρ × World σ :=
  if trimSpace query = "" then
    (Except.error "empty query", w.record (Event.checkQuery query))
  else
    match dbQueryRowScan d (trimSpace query) (w.record (Event.checkQuery query)) with
    | (Except.error err, w1) => (Except.error ("query failed: " ++ err), w1)
    | (Except.ok result, w1) => (Except.ok result, w1)

/-! ## The handler (main.go, lines 91-132) -/

/-- The table loop: the first error ends it. -/
def checkTables (d : DB σ ρ) : List String → World σ → Option String × World σ
  | [], w => (none, w)
  | table :: rest, w =>
    match checkTableExists d table w with
    | (some err, w1) => (some err, w1)
    | (none, w1) => checkTables d rest w1

/-- The query loop: `results` is the slice collected so far, the first error
ends the loop. -/
def runQueries (d : DB σ ρ) : List String → List ρ → World σ → Except String (List ρ) × World σ
  | [], results, w => (Except.ok results, w)
  | query :: rest, results, w =>
    match checkQuery d query w with
    | (Except.error err, w1) => (Except.error err, w1)
    | (Except.ok result, w1) => runQueries d rest (results ++ [result]) w1

/-- The response of every failing branch. -/
def unhealthy (err : String) : Response ρ :=
  { code := StatusServiceUnavailable, body := { Status := "unhealthy", Error := err, Results := [] } }

/-- The handler registered for `/healthz`. -/
def healthz (cfg : Config) (d : DB σ ρ) (w : World σ) : Response ρ × World σ :=
  match dbPing d w with
  | (some err, w1) => (unhealthy err, w1)
  | (none, w1) =>
    match checkTables d cfg.tables w1 with
    | (some err, w2) => (unhealthy err, w2)
    | (none, w2) =>
      match runQueries d cfg.queries [] w2 with
      | (Except.error err, w3) => (unhealthy err, w3)
      | (Except.ok results, w3) =>
        ({ code := StatusOK,
           body := { Status := "ok", Error := "",
                     Results := if cfg.exposeQueryResults then results else [] } }, w3)

end Ops

/-! ## Call counters read from the log -/

/-- Number of calls of `checkTableExists` in a log. -/
def tableCheckCalls (log : List Event) : Nat :=
  log.countP (fun e => match e with | Event.checkTableExists _ => true | _ => false)

/-- Number of calls of `checkQuery` in a log. -/
def queryCheckCalls (log : List Event) : Nat :=
  log.countP (fun e => match e with | Event.checkQuery _ => true | _ => false)

/-- Number of operations sent to the database, the ping apart. -/
def dbCalls (log : List Event) : Nat :=
  log.countP (fun e => match e with
    | Event.prepare _ => true
    | Event.stmtQueryRow _ => true
    | Event.stmtClose => true
    | Event.queryRow _ => true
    | _ => false)

/-! ## The JSON body

`json.NewEncoder(w).Encode(response)` and the decoding of the body by a client,
on JSON values rather than on their text: a number is the exact value of its
decimal text, a string is the sequence of its runes.  `Encode` writes nothing
when it returns an error, which it does for a NaN or an infinite float64 and for
a `time.Time` whose `MarshalJSON` fails; the handler has then already sent the
status code. -/

/-- A float64 result: a finite value kept exactly (the two zeros are one
value), an infinity or a NaN. -/
inductive Float64 where
  | finite (value : ℚ)
  | posInf
  | negInf
  | nan
deriving DecidableEq

/-- A `time.Time` result, kept as what its `MarshalJSON` returns: the RFC 3339
text between the quotes, or `none` when it returns an error (a year outside
0..9999). -/
structure Time where
  marshalJSON : Option String
deriving DecidableEq

/-- A scalar as the driver scans it into an `interface{}`: nil, bool, int64,
float64, string, byte slice or `time.Time`.  A Go string is a sequence of bytes,
valid UTF-8 or not. -/
inductive Scalar where
  | null
  | bool (b : Bool)
  | int (n : Int)
  | float (f : Float64)
  | str (s : List UInt8)
  | bytes (b : List UInt8)
  | time (t : Time)
deriving DecidableEq

/-- A JSON value that is not an array or an object. -/
inductive JSONValue where
  | null
  | bool (b : Bool)
  | num (q : ℚ)
  | str (s : String)
deriving DecidableEq

/-- The value of one key of the body: a scalar or an array of scalars. -/
inductive JSONField where
  | value (v : JSONValue)
  | array (items : List JSONValue)
deriving DecidableEq

/-- A JSON object: its keys in the order written. -/
abbrev JSONObject := List (String × JSONField)

/-- The keys of a JSON object. -/
def JSONObject.keys (o : JSONObject) : List String :=
  o.map Prod.fst

/-- A function that may fail, applied to every element of a list: the results
when all succeed, `none` as soon as one fails. -/
def mapOption {α β : Type} (f : α → Option β) : List α → Option (List β)
  | [] => some []
  | a :: rest =>
    match f a with
    | none => none
    | some b =>
      match mapOption f rest with
      | none => none
      | some bs => some (b :: bs)

/-! ### Numbers: `strconv` -/

/-- Rounding of a rational to the nearest integer, a tie going to the even
one. -/
def roundHalfEven (s : ℚ) : ℤ :=
  if s - ⌊s⌋ > 1 / 2 ∨ (s - ⌊s⌋ = 1 / 2 ∧ ⌊s⌋ % 2 = 1) then ⌊s⌋ + 1 else ⌊s⌋

/-- The largest float64. -/
def maxFloat64 : ℚ := (2 ^ 53 - 1) * 2 ^ 971

/-- The positive rational `q` rounded to a 53-bit significand, the exponent not
below that of the subnormal numbers. -/
def nearestFloat64Pos (q : ℚ) : ℚ :=
  (roundHalfEven (q / 2 ^ max (Int.log 2 q - 52) (-1074)) : ℚ) *
    2 ^ max (Int.log 2 q - 52) (-1074)

/-- What `strconv.ParseFloat(s, 64)` reads from a decimal text of value `q`: the
nearest float64, ties to even; `none` is the range error of a text that rounds
beyond the largest float64. -/
def nearestFloat64 (q : ℚ) : Option ℚ :=
  if q = 0 then some 0
  else if nearestFloat64Pos |q| > maxFloat64 then none
  else some (if q < 0 then -nearestFloat64Pos |q| else nearestFloat64Pos |q|)

/-- The positive rational `q` rounded to `n` significant decimal digits. -/
def roundToDigits (q : ℚ) (n : ℕ) : ℚ :=
  (roundHalfEven (q / 10 ^ (Int.log 10 q - (n : ℤ) + 1)) : ℚ) *
    10 ^ (Int.log 10 q - (n : ℤ) + 1)

/-- The decimal with the fewest significant digits that reads back as the
positive float64 `a`, which is what `strconv` writes for it; 17 digits always
suffice, and the last resort, not met, is the exact value. -/
def shortestDecimal (a : ℚ) : ℚ :=
  (((List.range 17).map (fun i => roundToDigits a (i + 1))).find?
    (fun d => nearestFloat64 d = some a)).getD a

/-- The value of the text `encoding/json` writes for a finite float64. -/
def formatFloat64 (q : ℚ) : ℚ :=
  if q < 0 then -shortestDecimal |q| else shortestDecimal |q|

/-! ### Strings: UTF-8 -/

/-- A continuation byte of UTF-8. -/
def isCont (b : UInt8) : Bool := 0x80 ≤ b.toNat && b.toNat ≤ 0xBF

/-- Go's `utf8.DecodeRune`, when it finds a valid encoding at the head: the
code point and its width in bytes; `none` is `(RuneError, 1)`. -/
def utf8Rune : List UInt8 → Option (Nat × Nat)
  | [] => none
  | b0 :: rest =>
    if b0.toNat < 0x80 then some (b0.toNat, 1)
    else if 0xC2 ≤ b0.toNat ∧ b0.toNat ≤ 0xDF then
      match rest with
      | b1 :: _ =>
        if isCont b1 then some ((b0.toNat - 0xC0) * 64 + (b1.toNat - 0x80), 2) else none
      | _ => none
    else if 0xE0 ≤ b0.toNat ∧ b0.toNat ≤ 0xEF then
      match rest with
      | b1 :: b2 :: _ =>
        if (if b0.toNat = 0xE0 then 0xA0 else 0x80) ≤ b1.toNat ∧
            b1.toNat ≤ (if b0.toNat = 0xED then 0x9F else 0xBF) ∧ isCont b2 then
          some ((b0.toNat - 0xE0) * 4096 + (b1.toNat - 0x80) * 64 + (b2.toNat - 0x80), 3)
        else none
      | _ => none
    else if 0xF0 ≤ b0.toNat ∧ b0.toNat ≤ 0xF4 then
      match rest with
      | b1 :: b2 :: b3 :: _ =>
        if (if b0.toNat = 0xF0 then 0x90 else 0x80) ≤ b1.toNat ∧
            b1.toNat ≤ (if b0.toNat = 0xF4 then 0x8F else 0xBF) ∧ isCont b2 ∧ isCont b3 then
          some ((b0.toNat - 0xF0) * 262144 + (b1.toNat - 0x80) * 4096 +
                (b2.toNat - 0x80) * 64 + (b3.toNat - 0x80), 4)
        else none
      | _ => none
    else none

/-- The runes `encoding/json` writes for a Go string: every byte that starts no
valid encoding is replaced by U+FFFD.  `skip` counts the bytes of the rune just
read that are still to be passed over. -/
def utf8DecodeLossy : Nat → List UInt8 → List Char
  | _, [] => []
  | skip + 1, _ :: rest => utf8DecodeLossy skip rest
  | 0, b :: rest =>
    match utf8Rune (b :: rest) with
    | some (cp, size) => Char.ofNat cp :: utf8DecodeLossy (size - 1) rest
    | none => Char.ofNat 0xFFFD :: utf8DecodeLossy 0 rest

/-- Go's `utf8.Valid`: every byte starts a valid encoding or continues one. -/
def utf8Valid : Nat → List UInt8 → Bool
  | _, [] => true
  | skip + 1, _ :: rest => utf8Valid skip rest
  | 0, b :: rest =>
    match utf8Rune (b :: rest) with
    | some (_, size) => utf8Valid (size - 1) rest
    | none => false

/-- The UTF-8 encoding of a rune. -/
def utf8EncodeRune (c : Char) : List UInt8 :=
  if c.toNat < 0x80 then [UInt8.ofNat c.toNat]
  else if c.toNat < 0x800 then
    [UInt8.ofNat (0xC0 + c.toNat / 64), UInt8.ofNat (0x80 + c.toNat % 64)]
  else if c.toNat < 0x10000 then
    [UInt8.ofNat (0xE0 + c.toNat / 4096), UInt8.ofNat (0x80 + c.toNat / 64 % 64),
     UInt8.ofNat (0x80 + c.toNat % 64)]
  else
    [UInt8.ofNat (0xF0 + c.toNat / 262144), UInt8.ofNat (0x80 + c.toNat / 4096 % 64),
     UInt8.ofNat (0x80 + c.toNat / 64 % 64), UInt8.ofNat (0x80 + c.toNat % 64)]

/-- The UTF-8 encoding of a text: the bytes of the Go string a JSON string is
decoded into. -/
def utf8Encode : List Char → List UInt8
  | [] => []
  | c :: cs => utf8EncodeRune c ++ utf8Encode cs

/-! ### Byte slices: base64 -/

/-- The alphabet of `base64.StdEncoding`. -/
def base64Alphabet : List Char :=
  "ABCDEFGHIJKLMNOPQRSTUVWXYZabcdefghijklmnopqrstuvwxyz0123456789+/".data

/-- The character of a 6-bit group. -/
def base64Char (n : Nat) : Char :=
  base64Alphabet.getD (n % 64) 'A'

/-- The output of `base64.StdEncoding` (padded): three bytes give four
characters. -/
def base64Encode : List UInt8 → List Char
  | [] => []
  | [a] =>
    [base64Char (a.toNat / 4), base64Char (a.toNat % 4 * 16), '=', '=']
  | [a, b] =>
    [base64Char (a.toNat / 4), base64Char (a.toNat % 4 * 16 + b.toNat / 16),
     base64Char (b.toNat % 16 * 4), '=']
  | a :: b :: c :: rest =>
    base64Char (a.toNat / 4) :: base64Char (a.toNat % 4 * 16 + b.toNat / 16) ::
    base64Char (b.toNat % 16 * 4 + c.toNat / 64) :: base64Char (c.toNat % 64) ::
    base64Encode rest

/-! ### Encoding -/

/-- How `encoding/json` writes a scalar held in an `interface{}`; `none` is an
error of the encoder.  A byte slice becomes the string of its base64 text, a
`time.Time` the string of the text its `MarshalJSON` returns, a NaN or an
infinity is an error. -/
def Scalar.toJSON : Scalar → Option JSONValue
  | Scalar.null => some JSONValue.null
  | Scalar.bool b => some (JSONValue.bool b)
  | Scalar.int n => some (JSONValue.num n)
  | Scalar.float (Float64.finite q) => some (JSONValue.num (formatFloat64 q))
  | Scalar.float _ => none
  | Scalar.str s => some (JSONValue.str (String.mk (utf8DecodeLossy 0 s)))
  | Scalar.bytes b => some (JSONValue.str (String.mk (base64Encode b)))
  | Scalar.time t => t.marshalJSON.map JSONValue.str

/-- How `encoding/json` writes a `HealthResponse`: `status` always, `error` and
`results` only when not empty (`omitempty`); `none` when a result cannot be
encoded. -/
def HealthResponse.toJSON {ρ : Type} (enc : ρ → Option JSONValue) (r : HealthResponse ρ) :
    Option JSONObject :=
  match mapOption enc r.Results with
  | none => none
  | some items =>
    some ([("status", JSONField.value (JSONValue.str r.Status))] ++
      (if r.Error = "" then [] else [("error", JSONField.value (JSONValue.str r.Error))]) ++
      (if items.isEmpty then [] else [("results", JSONField.array items)]))

/-- What a client receives: the status code and the body, `none` being the
empty body left by a failed `Encode`. -/
structure HTTPResponse where
  code : Nat
  body : Option JSONObject
deriving DecidableEq

/-- The handler as seen by a client: the status code sent by `WriteHeader` and
the body written by `json.NewEncoder(w).Encode`, whose error is discarded. -/
def serve {σ ρ : Type} (enc : ρ → Option JSONValue) (cfg : Config) (d : DB σ ρ) (w : World σ) :
    HTTPResponse × World σ :=
  ({ code := (healthz cfg d w).1.code, body := HealthResponse.toJSON enc (healthz cfg d w).1.body },
   (healthz cfg d w).2)

/-! ### Decoding -/

/-- A value that `encoding/json` stores in an `interface{}` when decoding a
scalar: nil, bool, float64 (kept as its exact value) or string (its bytes). -/
inductive Decoded where
  | null
  | bool (b : Bool)
  | number (value : ℚ)
  | str (s : List UInt8)
deriving DecidableEq

/-- Decoding of a JSON scalar into an `interface{}`; `none` is the error for a
number out of the range of float64. -/
def JSONValue.decode : JSONValue → Option Decoded
  | JSONValue.null => some Decoded.null
  | JSONValue.bool b => some (Decoded.bool b)
  | JSONValue.num q => (nearestFloat64 q).map Decoded.number
  | JSONValue.str s => some (Decoded.str (utf8Encode s.data))

/-- The string stored under a key, the empty string when the key is absent or
holds something else. -/
def JSONObject.getString (o : JSONObject) (key : String) : String :=
  match o.lookup key with
  | some (JSONField.value (JSONValue.str s)) => s
  | _ => ""

/-- The array stored under a key, decoded; empty when the key is absent, `none`
when an item cannot be decoded or the key holds no array. -/
def JSONObject.getArray (o : JSONObject) (key : String) : Option (List Decoded) :=
  match o.lookup key with
  | none => some []
  | some (JSONField.array items) => mapOption JSONValue.decode items
  | some (JSONField.value _) => none

/-- Decoding of the body into a `HealthResponse` whose results are
`[]interface{}` (`json.Unmarshal`). -/
def decodeResponse (o : JSONObject) : Option (HealthResponse Decoded) :=
  (o.getArray "results").map
    (fun results =>
      { Status := o.getString "status", Error := o.getString "error", Results := results })

/-- Equality of a scanned scalar and a decoded value: same content, an integer
and a float64 being equal to the number of the same value.  No decoded value is
a byte slice or a `time.Time`, and a NaN is equal to nothing. -/
def Scalar.sameAs : Scalar → Decoded → Bool
  | Scalar.null, Decoded.null => true
  | Scalar.bool b, Decoded.bool c => b = c
  | Scalar.int n, Decoded.number v => (n : ℚ) = v
  | Scalar.float (Float64.finite q), Decoded.number v => q = v
  | Scalar.str s, Decoded.str t => s = t
  | _, _ => false

/-- The values a driver can produce: an integer is an int64 and a finite float
is a float64. -/
def Scalar.wellFormed : Scalar → Bool
  | Scalar.int n => -(2 ^ 63) ≤ n ∧ n < 2 ^ 63
  | Scalar.float (Float64.finite q) => nearestFloat64 q = some q
  | _ => true

/-- The kinds of scalar that come back equal: nil, bool, an integer of
magnitude at most 2^53, a finite float64 and a string of valid UTF-8. -/
def Scalar.roundTrips : Scalar → Bool
  | Scalar.null => true
  | Scalar.bool _ => true
  | Scalar.int n => n.natAbs ≤ 2 ^ 53
  | Scalar.float (Float64.finite _) => true
  | Scalar.float _ => false
  | Scalar.str s => utf8Valid 0 s
  | Scalar.bytes _ => false
  | Scalar.time _ => false

/-! ## Test doubles -/

/-- A stateless double: the ping outcome, the catalog count of each table and
the answer to each query are fixed; `Prepare` succeeds. -/
def stubDB {ρ : Type} (pingErr : Option String) (count : String → Except String Int)
    (answer : String → Except String ρ) : DB Unit ρ :=
  { pingContext := fun s => (pingErr, s)
    prepare := fun _ s => (none, s)
    stmtQueryRowScan := fun t s => (count t, s)
    stmtClose := fun s => s
    queryRowScan := fun q s => (answer q, s) }

/-- The world before the first request: a fresh double, an empty log. -/
def World.start : World Unit :=
  { db := (), log := [] }


/-- A stateless double whose `Prepare` fails with `msg`: the ping succeeds and
the queries are answered. -/
def prepareFailsDB {ρ : Type} (msg : String) (answer : String → Except String ρ) : DB Unit ρ :=
  { pingContext := fun s => (none, s)
    prepare := fun _ s => (some msg, s)
    stmtQueryRowScan := fun _ s => (Except.ok 1, s)
    stmtClose := fun s => s
    queryRowScan := fun q s => (answer q, s) }

/-- The catalog of the examples: `users` exists, `ghost` does not, the lookup of
any other table fails. -/
def sampleCount (t : String) : Except String Int :=
  if t = "users" then Except.ok 1
  else if t = "ghost" then Except.ok 0
  else Except.error "connection reset"

/-- The answers of the examples, one kind of scalar per query. -/
def sampleAnswer (q : String) : Except String Scalar :=
  if q = "SELECT 1" then Except.ok (Scalar.int 1)
  else if q = "SELECT 'up'" then Except.ok (Scalar.str [117, 112])
  else if q = "SELECT true" then Except.ok (Scalar.bool true)
  else if q = "SELECT NULL" then Except.ok Scalar.null
  else if q = "SELECT 1.5::float8" then Except.ok (Scalar.float (Float64.finite (3 / 2)))
  else if q = "SELECT 'NaN'::float8" then Except.ok (Scalar.float Float64.nan)
  else if q = "SELECT 'hi'::bytea" then Except.ok (Scalar.bytes [104, 105])
  else if q = "SELECT 9007199254740993" then Except.ok (Scalar.int 9007199254740993)
  else if q = "SELECT now()" then Except.ok (Scalar.time { marshalJSON := some "2024-05-01T12:00:00Z" })
  else if q = "SELECT chr(255)" then Except.ok (Scalar.str [255])
  else Except.error "syntax error"

/-! ## Lemmas on the log and on the two loops -/

section Lemmas
variable {σ ρ : Type}

theorem tableCheckCalls_append (l₁ l₂ : List Event) :
    tableCheckCalls (l₁ ++ l₂) = tableCheckCalls l₁ + tableCheckCalls l₂ := by
  simp [tableCheckCalls]

theorem queryCheckCalls_append (l₁ l₂ : List Event) :
    queryCheckCalls (l₁ ++ l₂) = queryCheckCalls l₁ + queryCheckCalls l₂ := by
  simp [queryCheckCalls]

theorem dbCalls_append (l₁ l₂ : List Event) :
    dbCalls (l₁ ++ l₂) = dbCalls l₁ + dbCalls l₂ := by
  simp [dbCalls]

/-- The log after `checkTableExists`: the call itself, then only operations on
the prepared statement. -/
theorem checkTableExists_log (d : DB σ ρ) (table : String) (w : World σ) :
    ∃ ops : List Event,
      (checkTableExists d table w).2.log = w.log ++ Event.checkTableExists table :: ops ∧
      tableCheckCalls ops = 0 ∧ queryCheckCalls ops = 0 := by
  unfold checkTableExists
  cases h1 : (d.prepare tableCountSQL w.db).1 with
  | some err =>
    refine ⟨[Event.prepare tableCountSQL], ?_, by decide, by decide⟩
    simp [dbPrepare, World.record, h1]
  | none =>
    cases h2 : (d.stmtQueryRowScan table (d.prepare tableCountSQL w.db).2).1 with
    | error err =>
      refine ⟨[Event.prepare tableCountSQL, Event.stmtQueryRow table, Event.stmtClose], ?_,
        by simp [tableCheckCalls], by simp [queryCheckCalls]⟩
      simp [dbPrepare, dbStmtQueryRowScan, dbStmtClose, World.record, h1, h2]
    | ok count =>
      refine ⟨[Event.prepare tableCountSQL, Event.stmtQueryRow table, Event.stmtClose], ?_,
        by simp [tableCheckCalls], by simp [queryCheckCalls]⟩
      by_cases hc : count = 0 <;>
        simp [dbPrepare, dbStmtQueryRowScan, dbStmtClose, World.record, h1, h2, hc]

theorem checkTableExists_tableCheckCalls (d : DB σ ρ) (table : String) (w : World σ) :
    tableCheckCalls (checkTableExists d table w).2.log = tableCheckCalls w.log + 1 := by
  obtain ⟨ops, hlog, h1, _⟩ := checkTableExists_log d table w
  rw [hlog, tableCheckCalls_append]
  have : tableCheckCalls (Event.checkTableExists table :: ops) = 1 := by
    have := tableCheckCalls_append [Event.checkTableExists table] ops
    simp only [List.singleton_append] at this
    rw [this, h1]; rfl
  omega

theorem checkTableExists_queryCheckCalls (d : DB σ ρ) (table : String) (w : World σ) :
    queryCheckCalls (checkTableExists d table w).2.log = queryCheckCalls w.log := by
  obtain ⟨ops, hlog, _, h2⟩ := checkTableExists_log d table w
  rw [hlog, queryCheckCalls_append]
  have : queryCheckCalls (Event.checkTableExists table :: ops) = 0 := by
    have := queryCheckCalls_append [Event.checkTableExists table] ops
    simp only [List.singleton_append] at this
    rw [this, h2]; rfl
  omega

/-- The table loop over a concatenation. -/
theorem checkTables_append (d : DB σ ρ) (a b : List String) (w : World σ) :
    checkTables d (a ++ b) w =
      match checkTables d a w with
      | (some err, w1) => (some err, w1)
      | (none, w1) => checkTables d b w1 := by
  induction a generalizing w with
  | nil => simp [checkTables]
  | cons t ts ih =>
    simp only [List.cons_append, checkTables]
    rcases h : checkTableExists d t w with ⟨_ | err, w1⟩
    · simp [ih]
    · simp

/-- A table loop that succeeds has called `checkTableExists` once per table and
`checkQuery` never. -/
theorem checkTables_ok_calls (d : DB σ ρ) (ts : List String) (w w1 : World σ)
    (h : checkTables d ts w = (none, w1)) :
    tableCheckCalls w1.log = tableCheckCalls w.log + ts.length ∧
    queryCheckCalls w1.log = queryCheckCalls w.log := by
  induction ts generalizing w with
  | nil =>
    simp only [checkTables, Prod.mk.injEq, true_and] at h
    subst h; simp
  | cons t ts ih =>
    simp only [checkTables] at h
    rcases h1 : checkTableExists d t w with ⟨_ | err, w2⟩
    · rw [h1] at h
      have hw : w2 = (checkTableExists d t w).2 := by rw [h1]
      have := ih w2 h
      have c1 := checkTableExists_tableCheckCalls d t w
      have c2 := checkTableExists_queryCheckCalls d t w
      rw [← hw] at c1 c2
      simp only [List.length_cons]
      omega
    · rw [h1] at h; simp at h

/-- The query loop over a concatenation. -/
theorem runQueries_append (d : DB σ ρ) (a b : List String) (acc : List ρ) (w : World σ) :
    runQueries d (a ++ b) acc w =
      match runQueries d a acc w with
      | (Except.error err, w1) => (Except.error err, w1)
      | (Except.ok rs, w1) => runQueries d b rs w1 := by
  induction a generalizing acc w with
  | nil => simp [runQueries]
  | cons q qs ih =>
    simp only [List.cons_append, runQueries]
    rcases h : checkQuery d q w with ⟨err | r, w1⟩
    · simp
    · simp [ih]

/-- The slice collected so far is only a prefix of the outcome. -/
theorem runQueries_acc (d : DB σ ρ) (qs : List String) (acc : List ρ) (w : World σ) :
    runQueries d qs acc w =
      match runQueries d qs [] w with
      | (Except.error err, w1) => (Except.error err, w1)
      | (Except.ok rs, w1) => (Except.ok (acc ++ rs), w1) := by
  induction qs generalizing acc w with
  | nil => simp [runQueries]
  | cons q qs ih =>
    simp only [runQueries]
    rcases h : checkQuery d q w with ⟨err | r, w1⟩
    · simp
    · simp only [List.nil_append]
      rw [ih (acc ++ [r]) w1, ih [r] w1]
      rcases h2 : runQueries d qs [] w1 with ⟨err | rs, w2⟩ <;> simp

/-- A successful query loop over a concatenation splits into two successful
loops. -/
theorem runQueries_append_ok (d : DB σ ρ) (a b : List String) (w v : World σ) (rs : List ρ)
    (h : runQueries d (a ++ b) [] w = (Except.ok rs, v)) :
    ∃ (ra rb : List ρ) (u : World σ),
      runQueries d a [] w = (Except.ok ra, u) ∧
      runQueries d b [] u = (Except.ok rb, v) ∧ rs = ra ++ rb := by
  rw [runQueries_append] at h
  rcases ha : runQueries d a [] w with ⟨err | ra, u⟩
  · rw [ha] at h; simp at h
  · rw [ha] at h
    simp only at h
    rw [runQueries_acc] at h
    rcases hb : runQueries d b [] u with ⟨err | rb, u2⟩
    · rw [hb] at h; simp at h
    · rw [hb] at h
      simp only [Prod.mk.injEq, Except.ok.injEq] at h
      exact ⟨ra, rb, u, rfl, by rw [← h.2]; exact hb, h.1.symm⟩

/-- A successful `checkQuery`: the query is not empty once trimmed and the
result is the answer of the database to the trimmed query. -/
theorem checkQuery_ok (d : DB σ ρ) (q : String) (w v : World σ) (r : ρ)
    (h : checkQuery d q w = (Except.ok r, v)) :
    trimSpace q ≠ "" ∧ (d.queryRowScan (trimSpace q) w.db).1 = Except.ok r := by
  unfold checkQuery at h
  by_cases hq : trimSpace q = ""
  · simp [hq] at h
  · refine ⟨hq, ?_⟩
    simp only [hq, if_false, dbQueryRowScan, World.record] at h
    rcases hr : (d.queryRowScan (trimSpace q) w.db).1 with err | r2
    · rw [hr] at h; simp at h
    · rw [hr] at h
      simp only [Prod.mk.injEq, Except.ok.injEq] at h
      rw [h.1]

/-- The log after `checkQuery` has one more call of it and no further call of
`checkTableExists`. -/
theorem checkQuery_calls (d : DB σ ρ) (q : String) (w : World σ) :
    queryCheckCalls (checkQuery d q w).2.log = queryCheckCalls w.log + 1 ∧
    tableCheckCalls (checkQuery d q w).2.log = tableCheckCalls w.log := by
  unfold checkQuery
  by_cases hq : trimSpace q = ""
  · simp [hq, World.record, queryCheckCalls, tableCheckCalls]
  · rcases hr : (d.queryRowScan (trimSpace q) w.db).1 with err | r2 <;>
      simp [hq, hr, dbQueryRowScan, World.record, queryCheckCalls, tableCheckCalls]

/-- A successful query loop returns one result per query and has called
`checkQuery` once per query. -/
theorem runQueries_ok_calls (d : DB σ ρ) (qs : List String) (w v : World σ) (rs : List ρ)
    (h : runQueries d qs [] w = (Except.ok rs, v)) :
    rs.length = qs.length ∧
    queryCheckCalls v.log = queryCheckCalls w.log + qs.length ∧
    tableCheckCalls v.log = tableCheckCalls w.log := by
  induction qs generalizing w rs with
  | nil =>
    simp only [runQueries, Prod.mk.injEq, Except.ok.injEq] at h
    rw [← h.1, ← h.2]; simp
  | cons q qs ih =>
    simp only [runQueries] at h
    rcases hc : checkQuery d q w with ⟨err | r, w1⟩
    · rw [hc] at h; simp at h
    · rw [hc] at h
      simp only [List.nil_append] at h
      rw [runQueries_acc] at h
      rcases hb : runQueries d qs [] w1 with ⟨err | rb, u2⟩
      · rw [hb] at h; simp at h
      · rw [hb] at h
        simp only [Prod.mk.injEq, Except.ok.injEq] at h
        have := ih w1 rb (by rw [hb, h.2])
        have c := checkQuery_calls d q w
        rw [hc] at c
        simp only at c
        rw [← h.1]
        simp only [List.length_cons, List.singleton_append]
        omega

/-- The ping leaves the two call counters as they were. -/
theorem dbPing_calls (d : DB σ ρ) (w : World σ) :
    tableCheckCalls (dbPing d w).2.log = tableCheckCalls w.log ∧
    queryCheckCalls (dbPing d w).2.log = queryCheckCalls w.log := by
  simp [dbPing, tableCheckCalls, queryCheckCalls]

/-- The handler with the exposure flag off: same steps, the results left out. -/
theorem healthz_expose_off (d : DB σ ρ) (tables queries : List String) (w : World σ) :
    healthz (Config.mk tables queries false) d w =
      (⟨(healthz (Config.mk tables queries true) d w).1.code,
        ⟨(healthz (Config.mk tables queries true) d w).1.body.Status,
         (healthz (Config.mk tables queries true) d w).1.body.Error, []⟩⟩,
       (healthz (Config.mk tables queries true) d w).2) := by
  unfold healthz
  rcases h1 : dbPing d w with ⟨_ | e1, w1⟩
  · simp only
    rcases h2 : checkTables d tables w1 with ⟨_ | e2, w2⟩
    · simp only
      rcases h3 : runQueries d queries [] w2 with ⟨e3 | rs, w3⟩
      · simp [unhealthy]
      · simp
    · simp [unhealthy]
  · simp [unhealthy]

/-- The two shapes of a response. -/
theorem healthz_shape (cfg : Config) (d : DB σ ρ) (w : World σ) :
    ((healthz cfg d w).1.code = 200 ∧ (healthz cfg d w).1.body.Status = "ok" ∧
      (healthz cfg d w).1.body.Error = "" ∧
      ((healthz cfg d w).1.body.Results ≠ [] → cfg.exposeQueryResults = true)) ∨
    ((healthz cfg d w).1.code = 503 ∧ (healthz cfg d w).1.body.Status = "unhealthy" ∧
      (healthz cfg d w).1.body.Results = []) := by
  unfold healthz
  rcases h1 : dbPing d w with ⟨_ | e1, w1⟩
  · simp only
    rcases h2 : checkTables d cfg.tables w1 with ⟨_ | e2, w2⟩
    · simp only
      rcases h3 : runQueries d cfg.queries [] w2 with ⟨e3 | rs, w3⟩
      · right; simp [unhealthy, StatusServiceUnavailable]
      · left
        refine ⟨rfl, rfl, rfl, ?_⟩
        cases hx : cfg.exposeQueryResults <;> simp
    · right; simp [unhealthy, StatusServiceUnavailable]
  · right; simp [unhealthy, StatusServiceUnavailable]

/-- A successful query loop met no query that is empty once trimmed. -/
theorem runQueries_ok_no_empty (d : DB σ ρ) (qs : List String) (acc : List ρ) (w v : World σ)
    (rs : List ρ) (h : runQueries d qs acc w = (Except.ok rs, v)) :
    ∀ q ∈ qs, trimSpace q ≠ "" := by
  induction qs generalizing acc w with
  | nil => simp
  | cons q qs ih =>
    simp only [runQueries] at h
    rcases hc : checkQuery d q w with ⟨err | r, w1⟩
    · rw [hc] at h; simp at h
    · rw [hc] at h
      intro x hx
      rcases List.mem_cons.1 hx with rfl | hx
      · exact (checkQuery_ok d _ w w1 r hc).1
      · exact ih _ w1 h x hx

/-- A query list with an entry that is empty once trimmed never gives 200. -/
theorem healthz_empty_entry (d : DB σ ρ) (tables queries : List String) (expose : Bool)
    (w : World σ) (q : String) (hmem : q ∈ queries) (hq : trimSpace q = "") :
    (healthz (Config.mk tables queries expose) d w).1.code = 503 ∧
    (healthz (Config.mk tables queries expose) d w).1.body.Status = "unhealthy" := by
  unfold healthz
  rcases h1 : dbPing d w with ⟨_ | e1, w1⟩
  · simp only
    rcases h2 : checkTables d tables w1 with ⟨_ | e2, w2⟩
    · simp only
      rcases h3 : runQueries d queries [] w2 with ⟨e3 | rs, w3⟩
      · simp [unhealthy, StatusServiceUnavailable]
      · exact absurd hq (runQueries_ok_no_empty d queries [] w2 w3 rs h3 q hmem)
    · simp [unhealthy, StatusServiceUnavailable]
  · simp [unhealthy, StatusServiceUnavailable]

end Lemmas

/-! ## Lemmas on `strings.Split` -/

theorem splitLoop_ne_nil (sep : List Char) (skip : Nat) (cur s : List Char) :
    splitLoop sep skip cur s ≠ [] := by
  induction s generalizing skip cur with
  | nil => simp [splitLoop]
  | cons c rest ih =>
    cases skip with
    | zero =>
      simp only [splitLoop]
      split
      · simp
      · exact ih _ _
    | succ k => simpa only [splitLoop] using ih k cur

theorem intercalate_cons_of_ne_nil (sep x : List Char) (l : List (List Char)) (hl : l ≠ []) :
    List.intercalate sep (x :: l) = x ++ sep ++ List.intercalate sep l := by
  cases l with
  | nil => exact absurd rfl hl
  | cons y ys => simp [List.intercalate]

/-- Joining the pieces of the split loop gives back what was split. -/
theorem intercalate_splitLoop (sep : List Char) (hsep : sep ≠ []) (skip : Nat)
    (cur s : List Char) (hskip : skip ≤ s.length) :
    List.intercalate sep (splitLoop sep skip cur s) = cur.reverse ++ s.drop skip := by
  induction s generalizing skip cur with
  | nil =>
    have : skip = 0 := by simpa using hskip
    subst this
    simp [splitLoop, List.intercalate]
  | cons c rest ih =>
    cases skip with
    | succ k =>
      simp only [splitLoop, List.drop_succ_cons]
      exact ih k cur (by simpa using hskip)
    | zero =>
      simp only [splitLoop, List.drop_zero]
      split
      · rename_i hp
        rw [List.isPrefixOf_iff_prefix] at hp
        obtain ⟨t, ht⟩ := hp
        have hlen : sep.length - 1 ≤ rest.length := by
          have := congrArg List.length ht
          simp only [List.length_append, List.length_cons] at this
          omega
        rw [intercalate_cons_of_ne_nil _ _ _ (splitLoop_ne_nil _ _ _ _), ih _ [] hlen]
        cases sep with
        | nil => exact absurd rfl hsep
        | cons a sep2 =>
          simp only [List.cons_append, List.cons.injEq] at ht
          obtain ⟨rfl, hrest⟩ := ht
          simp only [List.length_cons, Nat.add_sub_cancel, List.reverse_nil, List.nil_append,
            List.append_assoc, List.cons_append]
          rw [← hrest, List.drop_left]
      · rw [ih 0 (c :: cur) (Nat.zero_le _)]
        simp

/-- The split loop returns one piece more than the count loop finds
separators. -/
theorem length_splitLoop (sep : List Char) (skip : Nat) (cur s : List Char) :
    (splitLoop sep skip cur s).length = countLoop sep skip s + 1 := by
  induction s generalizing skip cur with
  | nil => simp [splitLoop, countLoop]
  | cons c rest ih =>
    cases skip with
    | succ k => simpa only [splitLoop, countLoop] using ih k cur
    | zero =>
      simp only [splitLoop, countLoop]
      split
      · simp [ih]
      · exact ih 0 _

theorem stringsJoin_stringsSplit (s sep : String) (hsep : sep ≠ "") :
    stringsJoin (stringsSplit s sep) sep = s := by
  have hd : sep.data ≠ [] := by
    intro h
    apply hsep
    cases sep
    simp only at h
    subst h
    rfl
  unfold stringsJoin stringsSplit
  have hmap : List.map String.data (List.map String.mk (splitLoop sep.data 0 [] s.data))
      = splitLoop sep.data 0 [] s.data := by
    rw [List.map_map]
    conv => rhs; rw [← List.map_id (splitLoop sep.data 0 [] s.data)]
    exact List.map_congr_left (fun _ _ => rfl)
  rw [hmap, intercalate_splitLoop sep.data hd 0 [] s.data (Nat.zero_le _)]
  simp

theorem length_stringsSplit (s sep : String) :
    (stringsSplit s sep).length = stringsCount s sep + 1 := by
  simp [stringsSplit, stringsCount, length_splitLoop]

/-! ## Lemmas on the operations of the query loop -/

section QueryLog
variable {σ ρ : Type}

/-- A successful `checkQuery` appends its call and the query sent. -/
theorem checkQuery_ok_log (d : DB σ ρ) (q : String) (w v : World σ) (r : ρ)
    (h : checkQuery d q w = (Except.ok r, v)) :
    v.log = w.log ++ [Event.checkQuery q, Event.queryRow (trimSpace q)] := by
  unfold checkQuery at h
  by_cases hq : trimSpace q = ""
  · simp [hq] at h
  · simp only [hq, if_false, dbQueryRowScan, World.record] at h
    rcases hr : (d.queryRowScan (trimSpace q) w.db).1 with err | r2
    · rw [hr] at h; simp at h
    · rw [hr] at h
      simp only [Prod.mk.injEq, Except.ok.injEq] at h
      rw [← h.2]
      simp

/-- A successful query loop has sent every query, trimmed, to the database. -/
theorem runQueries_ok_log (d : DB σ ρ) (qs : List String) (acc : List ρ) (w v : World σ)
    (rs : List ρ) (h : runQueries d qs acc w = (Except.ok rs, v)) :
    ∃ ops : List Event, v.log = w.log ++ ops ∧ ∀ q ∈ qs, Event.queryRow (trimSpace q) ∈ ops := by
  induction qs generalizing acc w with
  | nil =>
    simp only [runQueries, Prod.mk.injEq] at h
    exact ⟨[], by rw [← h.2]; simp, by simp⟩
  | cons q qs ih =>
    simp only [runQueries] at h
    rcases hc : checkQuery d q w with ⟨err | r, w1⟩
    · rw [hc] at h; simp at h
    · rw [hc] at h
      obtain ⟨ops, hlog, hmem⟩ := ih _ w1 h
      have h1 := checkQuery_ok_log d q w w1 r hc
      refine ⟨[Event.checkQuery q, Event.queryRow (trimSpace q)] ++ ops, ?_, ?_⟩
      · rw [hlog, h1]; simp
      · intro x hx
        rcases List.mem_cons.1 hx with rfl | hx
        · simp
        · exact List.mem_append_right _ (hmem x hx)

end QueryLog

/-! ## Lemmas on numbers -/

theorem roundHalfEven_intCast (z : ℤ) : roundHalfEven (z : ℚ) = z := by
  simp [roundHalfEven]

theorem roundHalfEven_le (s : ℚ) : (roundHalfEven s : ℚ) ≤ s + 1 := by
  unfold roundHalfEven
  have h := Int.floor_le s
  split
  · push_cast; linarith
  · linarith

/-- A positive rational `m * 2 ^ e` with `m < 2 ^ 53` and `e ≥ -1074` is a float64. -/
theorem nearestFloat64Pos_of_repr (m : ℕ) (e : ℤ) (hm0 : 0 < m) (hm : m < 2 ^ 53)
    (he : -1074 ≤ e) : nearestFloat64Pos ((m : ℚ) * 2 ^ e) = (m : ℚ) * 2 ^ e := by
  have h2 : (0 : ℚ) < 2 := by norm_num
  have hq : (0 : ℚ) < (m : ℚ) * 2 ^ e := by
    have : (0 : ℚ) < (m : ℚ) := by exact_mod_cast hm0
    positivity
  have hlt : (m : ℚ) * 2 ^ e < ((2 : ℕ) : ℚ) ^ (53 + e) := by
    rw [zpow_add₀ (by norm_num)]
    have hm' : (m : ℚ) < (2 : ℚ) ^ (53 : ℤ) := by
      have : (m : ℚ) < ((2 ^ 53 : ℕ) : ℚ) := by exact_mod_cast hm
      rw [zpow_ofNat]
      exact_mod_cast this
    have hp : (0 : ℚ) < (2 : ℚ) ^ e := by positivity
    push_cast
    exact mul_lt_mul_of_pos_right hm' hp
  have hlog : Int.log 2 ((m : ℚ) * 2 ^ e) < 53 + e :=
    (Int.lt_zpow_iff_log_lt (by norm_num) hq).1 hlt
  have hle : max (Int.log 2 ((m : ℚ) * 2 ^ e) - 52) (-1074) ≤ e := by
    apply max_le <;> omega
  unfold nearestFloat64Pos
  generalize max (Int.log 2 ((m : ℚ) * 2 ^ e) - 52) (-1074) = k at hle
  obtain ⟨j, hj⟩ : ∃ j : ℕ, e = k + j := ⟨(e - k).toNat, by omega⟩
  have hdiv : (m : ℚ) * 2 ^ e / 2 ^ k = ((m * 2 ^ j : ℕ) : ℤ) := by
    rw [hj, zpow_add₀ (by norm_num)]
    field_simp
    ring
  rw [hdiv, roundHalfEven_intCast, hj, zpow_add₀ (by norm_num)]
  push_cast
  rw [zpow_natCast]
  ring

theorem nearestFloat64_neg (q : ℚ) : nearestFloat64 (-q) = (nearestFloat64 q).map (fun x => -x) := by
  unfold nearestFloat64
  by_cases h0 : q = 0
  · simp [h0]
  · have h0' : -q ≠ 0 := by simpa using h0
    simp only [h0, h0', if_false, abs_neg]
    by_cases hr : nearestFloat64Pos |q| > maxFloat64
    · simp [hr]
    · simp only [hr, if_false, Option.map_some', Option.some.injEq]
      rcases lt_or_gt_of_ne h0 with h | h
      · have : ¬ (-q < 0) := by linarith
        simp [h, this]
      · have h1 : -q < 0 := by linarith
        have h2 : ¬ (q < 0) := by linarith
        simp [h1, h2]


theorem maxFloat64_ge : (2 : ℚ) ^ 64 ≤ maxFloat64 := by
  unfold maxFloat64
  norm_num

/-- Rounding at most doubles a rational that is at least one. -/
theorem nearestFloat64Pos_le (a : ℚ) (ha : 1 ≤ a) : nearestFloat64Pos a ≤ 2 * a := by
  have ha0 : 0 < a := by linarith
  have hlog0 : 0 ≤ Int.log 2 a := by
    have := (Int.zpow_le_iff_le_log (b := 2) (by norm_num) ha0 (x := 0)).1 (by simpa using ha)
    exact this
  have hmax : max (Int.log 2 a - 52) (-1074) = Int.log 2 a - 52 := by
    apply max_eq_left; omega
  unfold nearestFloat64Pos
  rw [hmax]
  have hp : (0 : ℚ) < 2 ^ (Int.log 2 a - 52) := by positivity
  have h1 := roundHalfEven_le (a / 2 ^ (Int.log 2 a - 52))
  have h2 : (2 : ℚ) ^ (Int.log 2 a - 52) ≤ a := by
    have h3 : (2 : ℚ) ^ (Int.log 2 a - 52) ≤ 2 ^ (Int.log 2 a) :=
      zpow_le_zpow_right₀ (by norm_num) (by omega)
    have h4 := Int.zpow_log_le_self (b := 2) (by norm_num) ha0
    push_cast at h4
    linarith
  calc (roundHalfEven (a / 2 ^ (Int.log 2 a - 52)) : ℚ) * 2 ^ (Int.log 2 a - 52)
      ≤ (a / 2 ^ (Int.log 2 a - 52) + 1) * 2 ^ (Int.log 2 a - 52) :=
        mul_le_mul_of_nonneg_right h1 hp.le
    _ = a + 2 ^ (Int.log 2 a - 52) := by field_simp
    _ ≤ 2 * a := by linarith

/-- Every int64 is read as some float64. -/
theorem nearestFloat64_int64_isSome (n : ℤ) (h : n.natAbs ≤ 2 ^ 63) :
    (nearestFloat64 (n : ℚ)).isSome = true := by
  unfold nearestFloat64
  by_cases h0 : (n : ℚ) = 0
  · simp [h0]
  · have hn : n ≠ 0 := by exact_mod_cast h0
    have habs : |(n : ℚ)| = (n.natAbs : ℚ) := by
      rw [Nat.cast_natAbs, Int.cast_abs]
    have h1 : (1 : ℚ) ≤ (n.natAbs : ℚ) := by
      have : 1 ≤ n.natAbs := Nat.one_le_iff_ne_zero.2 (by simpa using hn)
      exact_mod_cast this
    have hb := nearestFloat64Pos_le _ h1
    have h63 : (n.natAbs : ℚ) ≤ 2 ^ 63 := by exact_mod_cast h
    have hmx := maxFloat64_ge
    have : ¬ nearestFloat64Pos |(n : ℚ)| > maxFloat64 := by
      rw [habs]
      have : (2 : ℚ) * 2 ^ 63 = 2 ^ 64 := by norm_num
      linarith
    simp [h0, this]

/-- An integer of magnitude at most 2^53 is a float64. -/
theorem nearestFloat64_of_small (n : ℤ) (h : n.natAbs ≤ 2 ^ 53) :
    nearestFloat64 (n : ℚ) = some (n : ℚ) := by
  unfold nearestFloat64
  by_cases h0 : (n : ℚ) = 0
  · simp [h0]
  · have hn : n ≠ 0 := by exact_mod_cast h0
    have habs : |(n : ℚ)| = (n.natAbs : ℚ) := by
      rw [Nat.cast_natAbs, Int.cast_abs]
    have hpos : 0 < n.natAbs := Nat.pos_of_ne_zero (by simpa using hn)
    have hfix : nearestFloat64Pos (n.natAbs : ℚ) = (n.natAbs : ℚ) := by
      by_cases hlt : n.natAbs < 2 ^ 53
      · have := nearestFloat64Pos_of_repr n.natAbs 0 hpos hlt (by norm_num)
        simpa using this
      · have heq : n.natAbs = 2 ^ 53 := by omega
        have := nearestFloat64Pos_of_repr (2 ^ 52) 1 (by norm_num) (by norm_num) (by norm_num)
        rw [heq]
        have hc : (((2 ^ 52 : ℕ) : ℚ)) * 2 ^ (1 : ℤ) = ((2 ^ 53 : ℕ) : ℚ) := by norm_num
        rw [hc] at this
        exact this
    have hmx := maxFloat64_ge
    have h53 : (n.natAbs : ℚ) ≤ 2 ^ 53 := by exact_mod_cast h
    have hnot : ¬ (n.natAbs : ℚ) > maxFloat64 := by
      have : (2 : ℚ) ^ 53 ≤ 2 ^ 64 := by norm_num
      linarith
    rw [if_neg h0, habs, hfix, if_neg hnot]
    congr 1
    split
    · rename_i hneg
      have h1 : n < 0 := by exact_mod_cast hneg
      have h2 : (n.natAbs : ℤ) = -n := by omega
      have h3 : ((n.natAbs : ℤ) : ℚ) = ((-n : ℤ) : ℚ) := by rw [h2]
      push_cast at h3
      linarith
    · rename_i hneg
      have h1 : 0 ≤ n := by
        by_contra hc
        exact hneg (by exact_mod_cast (not_le.1 hc))
      have h2 : (n.natAbs : ℤ) = n := by omega
      have h3 : ((n.natAbs : ℤ) : ℚ) = (n : ℚ) := by rw [h2]
      push_cast at h3
      linarith

/-- The integer 2^53 + 1 is read as 2^53. -/
theorem nearestFloat64_two_pow_53_add_one :
    nearestFloat64 9007199254740993 = some 9007199254740992 := by
  have hlog : Int.log 2 (9007199254740993 : ℚ) = 53 := by
    have h := Int.log_natCast (R := ℚ) 2 9007199254740993
    have hn : Nat.log 2 9007199254740993 = 53 :=
      (Nat.log_eq_iff (by norm_num)).2 (by norm_num)
    rw [hn] at h
    exact_mod_cast h
  have hfloor : ⌊(9007199254740993 : ℚ) / 2⌋ = 4503599627370496 := by
    rw [Int.floor_eq_iff]
    constructor <;> norm_num
  have hpos : nearestFloat64Pos 9007199254740993 = 9007199254740992 := by
    unfold nearestFloat64Pos
    rw [hlog]
    have hm : max ((53 : ℤ) - 52) (-1074) = 1 := by norm_num
    rw [hm]
    simp only [zpow_one]
    have hr : roundHalfEven ((9007199254740993 : ℚ) / 2) = 4503599627370496 := by
      unfold roundHalfEven
      rw [hfloor]
      norm_num
    rw [hr]
    norm_num
  unfold nearestFloat64
  have habs : |(9007199254740993 : ℚ)| = 9007199254740993 := abs_of_pos (by norm_num)
  rw [habs, hpos]
  have hmx := maxFloat64_ge
  have hnot : ¬ (9007199254740992 : ℚ) > maxFloat64 := by
    have : (9007199254740992 : ℚ) ≤ 2 ^ 64 := by norm_num
    linarith
  norm_num [hnot]

/-- The shortest decimal of a float64 reads back as that float64. -/
theorem nearestFloat64_formatFloat64 (q : ℚ) (h : nearestFloat64 q = some q) :
    nearestFloat64 (formatFloat64 q) = some q := by
  have habs : nearestFloat64 |q| = some |q| := by
    rcases le_or_lt 0 q with hq | hq
    · rw [abs_of_nonneg hq]; exact h
    · rw [abs_of_neg hq, nearestFloat64_neg, h]; rfl
  have hd : nearestFloat64 (shortestDecimal |q|) = some |q| := by
    unfold shortestDecimal
    cases hf : ((List.range 17).map (fun i => roundToDigits |q| (i + 1))).find?
        (fun d => nearestFloat64 d = some |q|) with
    | none => simpa using habs
    | some d =>
      have := List.find?_some hf
      simpa using this
  unfold formatFloat64
  split
  · rename_i hq
    rw [nearestFloat64_neg, hd, abs_of_neg hq]
    simp
  · rename_i hq
    rw [hd, abs_of_nonneg (not_lt.1 hq)]

/-- The rational 3/2 is a float64. -/
theorem nearestFloat64_three_halves : nearestFloat64 (3 / 2) = some (3 / 2) := by
  have h := nearestFloat64Pos_of_repr 3 (-1) (by norm_num) (by norm_num) (by norm_num)
  have hv : ((3 : ℕ) : ℚ) * 2 ^ (-1 : ℤ) = 3 / 2 := by norm_num
  rw [hv] at h
  unfold nearestFloat64
  have habs : |(3 / 2 : ℚ)| = 3 / 2 := abs_of_pos (by norm_num)
  have hmx := maxFloat64_ge
  have hnot : ¬ (3 / 2 : ℚ) > maxFloat64 := by
    have : (3 / 2 : ℚ) ≤ 2 ^ 64 := by norm_num
    linarith
  rw [if_neg (by norm_num), habs, h, if_neg hnot, if_neg (by norm_num)]

/-! ## Lemmas on UTF-8 -/

theorem toNat_ofNat_valid (n : Nat) (h : n.isValidChar) : (Char.ofNat n).toNat = n := by
  unfold Char.ofNat
  simp only [h, dite_true, Char.ofNatAux, Char.toNat]
  rfl

theorem ofNat_toNat_u8 (b : UInt8) : UInt8.ofNat b.toNat = b := by
  cases b
  simp [UInt8.ofNat, UInt8.toNat]

theorem isCont_iff (b : UInt8) : isCont b = true ↔ 0x80 ≤ b.toNat ∧ b.toNat ≤ 0xBF := by
  simp [isCont]

/-- A rune found by `utf8Rune` is a code point whose encoding is the bytes read. -/
theorem utf8Rune_spec (s : List UInt8) (cp size : Nat) (h : utf8Rune s = some (cp, size)) :
    utf8EncodeRune (Char.ofNat cp) = s.take size ∧ 1 ≤ size ∧ size ≤ s.length := by
  cases s with
  | nil => simp [utf8Rune] at h
  | cons b0 rest =>
    have hb0 := ofNat_toNat_u8 b0
    by_cases h1 : b0.toNat < 0x80
    · simp only [utf8Rune, h1, if_true, Option.some.injEq, Prod.mk.injEq] at h
      obtain ⟨rfl, rfl⟩ := h
      have hv : (b0.toNat).isValidChar := by left; omega
      refine ⟨?_, by omega, by simp⟩
      rw [utf8EncodeRune, toNat_ofNat_valid _ hv, if_pos h1, hb0]
      rfl
    by_cases h2 : 0xC2 ≤ b0.toNat ∧ b0.toNat ≤ 0xDF
    · cases rest with
      | nil => simp [utf8Rune, h1, h2] at h
      | cons b1 rest =>
        have hb1 := ofNat_toNat_u8 b1
        by_cases hc : isCont b1 = true
        · simp only [utf8Rune, h1, h2, hc, if_true, if_false, and_self, Option.some.injEq,
            Prod.mk.injEq] at h
          obtain ⟨rfl, rfl⟩ := h
          rw [isCont_iff] at hc
          have hv : ((b0.toNat - 0xC0) * 64 + (b1.toNat - 0x80)).isValidChar := by
            left; omega
          refine ⟨?_, by omega, by simp⟩
          rw [utf8EncodeRune, toNat_ofNat_valid _ hv, if_neg (by omega), if_pos (by omega)]
          have e1 : 0xC0 + ((b0.toNat - 0xC0) * 64 + (b1.toNat - 0x80)) / 64 = b0.toNat := by
            omega
          have e2 : 0x80 + ((b0.toNat - 0xC0) * 64 + (b1.toNat - 0x80)) % 64 = b1.toNat := by
            omega
          rw [e1, e2, hb0, hb1]
          rfl
        · simp [utf8Rune, h1, h2, hc] at h
    by_cases h3 : 0xE0 ≤ b0.toNat ∧ b0.toNat ≤ 0xEF
    · rcases rest with _ | ⟨b1, _ | ⟨b2, rest⟩⟩
      · simp [utf8Rune, h1, h2, h3] at h
      · simp [utf8Rune, h1, h2, h3] at h
      · have hb1 := ofNat_toNat_u8 b1
        have hb2 := ofNat_toNat_u8 b2
        by_cases hc : (if b0.toNat = 0xE0 then 0xA0 else 0x80) ≤ b1.toNat ∧
            b1.toNat ≤ (if b0.toNat = 0xED then 0x9F else 0xBF) ∧ isCont b2 = true
        · simp only [utf8Rune, h1, h2, h3, hc, if_true, if_false, and_self, Option.some.injEq,
            Prod.mk.injEq] at h
          obtain ⟨rfl, rfl⟩ := h
          obtain ⟨hlo, hhi, hc2⟩ := hc
          rw [isCont_iff] at hc2
          have hlo' : 0x80 ≤ b1.toNat ∧ (b0.toNat = 0xE0 → 0xA0 ≤ b1.toNat) := by
            split at hlo <;> omega
          have hhi' : b1.toNat ≤ 0xBF ∧ (b0.toNat = 0xED → b1.toNat ≤ 0x9F) := by
            split at hhi <;> omega
          have hv : ((b0.toNat - 0xE0) * 4096 + (b1.toNat - 0x80) * 64 +
              (b2.toNat - 0x80)).isValidChar := by
            unfold Nat.isValidChar
            omega
          refine ⟨?_, by omega, by simp⟩
          rw [utf8EncodeRune, toNat_ofNat_valid _ hv, if_neg (by omega), if_neg (by omega),
            if_pos (by omega)]
          have e1 : 0xE0 + ((b0.toNat - 0xE0) * 4096 + (b1.toNat - 0x80) * 64 +
              (b2.toNat - 0x80)) / 4096 = b0.toNat := by omega
          have e2 : 0x80 + ((b0.toNat - 0xE0) * 4096 + (b1.toNat - 0x80) * 64 +
              (b2.toNat - 0x80)) / 64 % 64 = b1.toNat := by omega
          have e3 : 0x80 + ((b0.toNat - 0xE0) * 4096 + (b1.toNat - 0x80) * 64 +
              (b2.toNat - 0x80)) % 64 = b2.toNat := by omega
          rw [e1, e2, e3, hb0, hb1, hb2]
          rfl
        · rw [utf8Rune, if_neg h1, if_neg h2, if_pos h3] at h
          simp only at h
          rw [if_neg hc] at h
          simp at h
    by_cases h4 : 0xF0 ≤ b0.toNat ∧ b0.toNat ≤ 0xF4
    · rcases rest with _ | ⟨b1, _ | ⟨b2, _ | ⟨b3, rest⟩⟩⟩
      · simp [utf8Rune, h1, h2, h3, h4] at h
      · simp [utf8Rune, h1, h2, h3, h4] at h
      · simp [utf8Rune, h1, h2, h3, h4] at h
      · have hb1 := ofNat_toNat_u8 b1
        have hb2 := ofNat_toNat_u8 b2
        have hb3 := ofNat_toNat_u8 b3
        by_cases hc : (if b0.toNat = 0xF0 then 0x90 else 0x80) ≤ b1.toNat ∧
            b1.toNat ≤ (if b0.toNat = 0xF4 then 0x8F else 0xBF) ∧ isCont b2 = true ∧
            isCont b3 = true
        · simp only [utf8Rune, h1, h2, h3, h4, hc, if_true, if_false, and_self,
            Option.some.injEq, Prod.mk.injEq] at h
          obtain ⟨rfl, rfl⟩ := h
          obtain ⟨hlo, hhi, hc2, hc3⟩ := hc
          rw [isCont_iff] at hc2 hc3
          have hlo' : 0x80 ≤ b1.toNat ∧ (b0.toNat = 0xF0 → 0x90 ≤ b1.toNat) := by
            split at hlo <;> omega
          have hhi' : b1.toNat ≤ 0xBF ∧ (b0.toNat = 0xF4 → b1.toNat ≤ 0x8F) := by
            split at hhi <;> omega
          have hv : ((b0.toNat - 0xF0) * 262144 + (b1.toNat - 0x80) * 4096 +
              (b2.toNat - 0x80) * 64 + (b3.toNat - 0x80)).isValidChar := by
            unfold Nat.isValidChar
            omega
          refine ⟨?_, by omega, by simp⟩
          rw [utf8EncodeRune, toNat_ofNat_valid _ hv, if_neg (by omega), if_neg (by omega),
            if_neg (by omega)]
          have e1 : 0xF0 + ((b0.toNat - 0xF0) * 262144 + (b1.toNat - 0x80) * 4096 +
              (b2.toNat - 0x80) * 64 + (b3.toNat - 0x80)) / 262144 = b0.toNat := by omega
          have e2 : 0x80 + ((b0.toNat - 0xF0) * 262144 + (b1.toNat - 0x80) * 4096 +
              (b2.toNat - 0x80) * 64 + (b3.toNat - 0x80)) / 4096 % 64 = b1.toNat := by omega
          have e3 : 0x80 + ((b0.toNat - 0xF0) * 262144 + (b1.toNat - 0x80) * 4096 +
              (b2.toNat - 0x80) * 64 + (b3.toNat - 0x80)) / 64 % 64 = b2.toNat := by omega
          have e4 : 0x80 + ((b0.toNat - 0xF0) * 262144 + (b1.toNat - 0x80) * 4096 +
              (b2.toNat - 0x80) * 64 + (b3.toNat - 0x80)) % 64 = b3.toNat := by omega
          rw [e1, e2, e3, e4, hb0, hb1, hb2, hb3]
          rfl
        · rw [utf8Rune, if_neg h1, if_neg h2, if_neg h3, if_pos h4] at h
          simp only at h
          rw [if_neg hc] at h
          simp at h
    simp [utf8Rune, h1, h2, h3, h4] at h

/-- Encoding the runes read from valid UTF-8 gives the bytes back. -/
theorem utf8Encode_decodeLossy (skip : Nat) (s : List UInt8) (hskip : skip ≤ s.length)
    (hv : utf8Valid skip s = true) :
    utf8Encode (utf8DecodeLossy skip s) = s.drop skip := by
  induction s generalizing skip with
  | nil => simp [utf8DecodeLossy, utf8Encode]
  | cons b rest ih =>
    cases skip with
    | succ k =>
      simp only [utf8DecodeLossy, List.drop_succ_cons]
      simp only [utf8Valid] at hv
      exact ih k (by simpa using hskip) hv
    | zero =>
      simp only [utf8DecodeLossy, utf8Valid, List.drop_zero] at hv ⊢
      cases hr : utf8Rune (b :: rest) with
      | none => rw [hr] at hv; simp at hv
      | some p =>
        obtain ⟨cp, size⟩ := p
        rw [hr] at hv
        simp only at hv ⊢
        obtain ⟨henc, h1, hlen⟩ := utf8Rune_spec _ _ _ hr
        have hlen' : size - 1 ≤ rest.length := by
          simp only [List.length_cons] at hlen; omega
        rw [utf8Encode, ih (size - 1) hlen' hv, henc]
        obtain ⟨j, rfl⟩ : ∃ j, size = j + 1 := ⟨size - 1, by omega⟩
        simp only [List.take_succ_cons, Nat.add_sub_cancel, List.cons_append]
        rw [List.take_append_drop]

/-! ## Lemmas on `mapOption` -/

theorem mapOption_length {α β : Type} (f : α → Option β) (l : List α) (l2 : List β)
    (h : mapOption f l = some l2) : l2.length = l.length := by
  induction l generalizing l2 with
  | nil =>
    simp only [mapOption, Option.some.injEq] at h
    subst h; rfl
  | cons a rest ih =>
    simp only [mapOption] at h
    cases ha : f a with
    | none => rw [ha] at h; simp at h
    | some b =>
      rw [ha] at h
      cases hr : mapOption f rest with
      | none => rw [hr] at h; simp at h
      | some bs =>
        rw [hr] at h
        simp only [Option.some.injEq] at h
        subst h
        simp [ih bs hr]

theorem mapOption_getElem? {α β : Type} (f : α → Option β) (l : List α) (l2 : List β)
    (h : mapOption f l = some l2) (i : Nat) (hi : i < l.length) :
    l2[i]? = f (l.get ⟨i, hi⟩) := by
  induction l generalizing l2 i with
  | nil => simp at hi
  | cons a rest ih =>
    simp only [mapOption] at h
    cases ha : f a with
    | none => rw [ha] at h; simp at h
    | some b =>
      rw [ha] at h
      cases hr : mapOption f rest with
      | none => rw [hr] at h; simp at h
      | some bs =>
        rw [hr] at h
        simp only [Option.some.injEq] at h
        subst h
        cases i with
        | zero => simp [ha]
        | succ j =>
          simp only [List.getElem?_cons_succ, List.get_eq_getElem, List.getElem_cons_succ]
          have := ih bs hr j (by simpa using hi)
          simpa using this

theorem mapOption_some_of_forall {α β : Type} (f : α → Option β) (l : List α)
    (h : ∀ a ∈ l, f a ≠ none) : ∃ l2, mapOption f l = some l2 := by
  induction l with
  | nil => exact ⟨[], rfl⟩
  | cons a rest ih =>
    obtain ⟨bs, hbs⟩ := ih (fun x hx => h x (List.mem_cons_of_mem _ hx))
    cases ha : f a with
    | none => exact absurd ha (h a (List.mem_cons_self _ _))
    | some b => exact ⟨b :: bs, by simp [mapOption, ha, hbs]⟩

theorem mapOption_none_of_mem {α β : Type} (f : α → Option β) (l : List α) (a : α)
    (hmem : a ∈ l) (ha : f a = none) : mapOption f l = none := by
  induction l with
  | nil => simp at hmem
  | cons x rest ih =>
    rcases List.mem_cons.1 hmem with rfl | hx
    · simp [mapOption, ha]
    · simp only [mapOption]
      cases hfx : f x with
      | none => rfl
      | some b => simp [ih hx]

theorem mem_of_mapOption_none {α β : Type} (f : α → Option β) (l : List α)
    (h : mapOption f l = none) : ∃ a ∈ l, f a = none := by
  by_contra hc
  push_neg at hc
  obtain ⟨l2, hl2⟩ := mapOption_some_of_forall f l hc
  rw [hl2] at h
  simp at h

theorem mapOption_bind {α β γ : Type} (f : α → Option β) (g : β → Option γ) (l : List α) :
    (mapOption f l).bind (mapOption g) = mapOption (fun a => (f a).bind g) l := by
  induction l with
  | nil => rfl
  | cons a rest ih =>
    simp only [mapOption]
    cases ha : f a with
    | none => simp
    | some b =>
      simp only [Option.some_bind]
      cases hr : mapOption f rest with
      | none =>
        rw [hr] at ih
        simp only [Option.none_bind] at ih
        cases hg : g b with
        | none => simp
        | some c => simp [← ih]
      | some bs =>
        rw [hr] at ih
        simp only [Option.some_bind] at ih
        simp only [Option.some_bind, mapOption]
        cases hg : g b with
        | none => rfl
        | some c => simp [ih]

theorem mapOption_four {α β : Type} (f : α → Option β) (a b c d : α) (x y z u : β)
    (ha : f a = some x) (hb : f b = some y) (hc : f c = some z) (hd : f d = some u) :
    mapOption f [a, b, c, d] = some [x, y, z, u] := by
  simp [mapOption, ha, hb, hc, hd]

/-! ## Lemmas on the JSON body -/

/-- The body written for a response whose results are all encoded. -/
theorem toJSON_of_encoded {ρ : Type} (enc : ρ → Option JSONValue) (r : HealthResponse ρ)
    (items : List JSONValue) (h : mapOption enc r.Results = some items) :
    HealthResponse.toJSON enc r =
      some ([("status", JSONField.value (JSONValue.str r.Status))] ++
        (if r.Error = "" then [] else [("error", JSONField.value (JSONValue.str r.Error))]) ++
        (if items.isEmpty then [] else [("results", JSONField.array items)])) := by
  simp [HealthResponse.toJSON, h]

/-- No body is written for a response with a result that cannot be encoded. -/
theorem toJSON_of_not_encoded {ρ : Type} (enc : ρ → Option JSONValue) (r : HealthResponse ρ)
    (h : mapOption enc r.Results = none) : HealthResponse.toJSON enc r = none := by
  simp [HealthResponse.toJSON, h]

/-- Decoding a written body: the status and the error as written, the results
decoded one by one. -/
theorem decodeResponse_body (st er : String) (items : List JSONValue) :
    decodeResponse ([("status", JSONField.value (JSONValue.str st))] ++
        (if er = "" then [] else [("error", JSONField.value (JSONValue.str er))]) ++
        (if items.isEmpty then [] else [("results", JSONField.array items)]))
      = (mapOption JSONValue.decode items).map
          (fun ds => { Status := st, Error := er, Results := ds }) := by
  have h1 : ("results" == "status") = false := by decide
  have h2 : ("results" == "error") = false := by decide
  have h3 : ("status" == "status") = true := by decide
  have h4 : ("error" == "status") = false := by decide
  have h5 : ("error" == "error") = true := by decide
  by_cases he : er = ""
  · cases items with
    | nil =>
      simp [decodeResponse, JSONObject.getArray, JSONObject.getString, List.lookup, he, h1, h3, h4,
        mapOption]
    | cons j js =>
      simp only [decodeResponse, JSONObject.getArray, JSONObject.getString, List.lookup, he,
        if_true, List.append_nil, List.isEmpty_cons, if_false, List.singleton_append, h1, h3, h4,
        Bool.false_eq_true, List.lookup, BEq.refl]
      cases mapOption JSONValue.decode (j :: js) <;> rfl
  · cases items with
    | nil =>
      simp [decodeResponse, JSONObject.getArray, JSONObject.getString, List.lookup, he, h1, h2, h3,
        h4, h5, mapOption]
    | cons j js =>
      simp only [decodeResponse, JSONObject.getArray, JSONObject.getString, List.lookup, he,
        if_false, List.isEmpty_cons, List.singleton_append, List.cons_append, List.nil_append,
        h1, h2, h3, h4, h5, Bool.false_eq_true, BEq.refl]

theorem int64_natAbs (n : Int) (h : -(2 ^ 63) ≤ n ∧ n < 2 ^ 63) : n.natAbs ≤ 2 ^ 63 := by
  omega

/-- What a well-formed scalar that can be encoded comes back as. -/
theorem decode_toJSON (v : Scalar) (j : JSONValue) (hwf : v.wellFormed = true)
    (hj : v.toJSON = some j) :
    ∃ x, j.decode = some x ∧
      (v.roundTrips = true → v.sameAs x = true) ∧
      (∀ n, v = Scalar.int n → ∃ q, nearestFloat64 n = some q ∧ x = Decoded.number q) ∧
      (∀ s, v = Scalar.str s → x = Decoded.str (utf8Encode (utf8DecodeLossy 0 s))) ∧
      (∀ b, v = Scalar.bytes b → x = Decoded.str (utf8Encode (base64Encode b))) ∧
      (∀ t, v = Scalar.time t →
        ∃ text, t.marshalJSON = some text ∧ x = Decoded.str (utf8Encode text.data)) := by
  cases v with
  | null =>
    simp only [Scalar.toJSON, Option.some.injEq] at hj
    subst hj
    exact ⟨Decoded.null, rfl, fun _ => rfl, by simp, by simp, by simp, by simp⟩
  | bool b =>
    simp only [Scalar.toJSON, Option.some.injEq] at hj
    subst hj
    exact ⟨Decoded.bool b, rfl, fun _ => by simp [Scalar.sameAs], by simp, by simp, by simp,
      by simp⟩
  | int n =>
    simp only [Scalar.toJSON, Option.some.injEq] at hj
    subst hj
    have hr : -(2 ^ 63) ≤ n ∧ n < 2 ^ 63 := by simpa [Scalar.wellFormed] using hwf
    have hs := nearestFloat64_int64_isSome n (int64_natAbs n hr)
    obtain ⟨q, hq⟩ := Option.isSome_iff_exists.1 hs
    refine ⟨Decoded.number q, by simp [JSONValue.decode, hq], ?_, ?_, by simp, by simp, by simp⟩
    · intro hrt
      have hn : n.natAbs ≤ 2 ^ 53 := by simpa [Scalar.roundTrips] using hrt
      rw [nearestFloat64_of_small n hn] at hq
      simp only [Option.some.injEq] at hq
      simp [Scalar.sameAs, hq]
    · intro m hm
      simp only [Scalar.int.injEq] at hm
      subst hm
      exact ⟨q, hq, rfl⟩
  | float f =>
    cases f with
    | finite q =>
      simp only [Scalar.toJSON, Option.some.injEq] at hj
      subst hj
      have hq : nearestFloat64 q = some q := by simpa [Scalar.wellFormed] using hwf
      refine ⟨Decoded.number q, by simp [JSONValue.decode, nearestFloat64_formatFloat64 q hq],
        fun _ => by simp [Scalar.sameAs], by simp, by simp, by simp, by simp⟩
    | posInf => simp [Scalar.toJSON] at hj
    | negInf => simp [Scalar.toJSON] at hj
    | nan => simp [Scalar.toJSON] at hj
  | str s =>
    simp only [Scalar.toJSON, Option.some.injEq] at hj
    subst hj
    refine ⟨Decoded.str (utf8Encode (utf8DecodeLossy 0 s)), rfl, ?_, by simp, ?_, by simp,
      by simp⟩
    · intro hrt
      have hv : utf8Valid 0 s = true := by simpa [Scalar.roundTrips] using hrt
      have := utf8Encode_decodeLossy 0 s (Nat.zero_le _) hv
      simp [Scalar.sameAs, this]
    · intro t ht
      simp only [Scalar.str.injEq] at ht
      subst ht
      rfl
  | bytes b =>
    simp only [Scalar.toJSON, Option.some.injEq] at hj
    subst hj
    refine ⟨Decoded.str (utf8Encode (base64Encode b)), rfl, by simp [Scalar.roundTrips], by simp,
      by simp, ?_, by simp⟩
    intro c hc
    simp only [Scalar.bytes.injEq] at hc
    subst hc
    rfl
  | time t =>
    simp only [Scalar.toJSON, Option.map_eq_some'] at hj
    obtain ⟨text, ht, rfl⟩ := hj
    refine ⟨Decoded.str (utf8Encode text.data), rfl, by simp [Scalar.roundTrips], by simp,
      by simp, by simp, ?_⟩
    intro u hu
    simp only [Scalar.time.injEq] at hu
    subst hu
    exact ⟨text, ht, rfl⟩

/-! ## The claims -/

section Claims
variable {σ ρ : Type}

/-- C1: when the ping fails with message `e`, whatever the configuration, the
handler answers 503 with status "unhealthy", error `e` and no results; the
world it leaves is the one right after the ping, so the log has gained the ping
alone and neither `checkTableExists` nor `checkQuery` nor any other database
operation has been called. -/
theorem C1_ping_failure (cfg : Config) (d : DB σ ρ) (w : World σ) (e : String)
    (hping : (d.pingContext w.db).1 = some e) :
    (healthz cfg d w).1 = { code := 503, body := { Status := "unhealthy", Error := e, Results := [] } } ∧
    (healthz cfg d w).2 = (dbPing d w).2 ∧
    (healthz cfg d w).2.log = w.log ++ [Event.ping] ∧
    tableCheckCalls (healthz cfg d w).2.log = tableCheckCalls w.log ∧
    queryCheckCalls (healthz cfg d w).2.log = queryCheckCalls w.log ∧
    dbCalls (healthz cfg d w).2.log = dbCalls w.log := by
  have h : healthz cfg d w = (unhealthy e, (dbPing d w).2) := by
    simp [healthz, dbPing, hping]
  rw [h]
  refine ⟨rfl, rfl, rfl, ?_, ?_, ?_⟩
  · simp [dbPing, tableCheckCalls]
  · simp [dbPing, queryCheckCalls]
  · simp [dbPing, dbCalls]

/-- Witness of C1: a refused connection, with a table and a query configured
and the flag on. -/
theorem C1_ping_failure_witness :
    (healthz { tables := ["users"], queries := ["SELECT 1"], exposeQueryResults := true }
        (stubDB (some "connection refused") (fun _ => Except.ok 1)
          (fun _ => Except.ok (Scalar.int 1)))
        World.start).1
      = { code := 503,
          body := { Status := "unhealthy", Error := "connection refused", Results := [] } } ∧
    (healthz { tables := ["users"], queries := ["SELECT 1"], exposeQueryResults := true }
        (stubDB (some "connection refused") (fun _ => Except.ok 1)
          (fun _ => Except.ok (Scalar.int 1)))
        World.start).2.log = [Event.ping] :=
  ⟨(C1_ping_failure { tables := ["users"], queries := ["SELECT 1"], exposeQueryResults := true }
      (stubDB (some "connection refused") (fun _ => Except.ok 1)
        (fun _ => Except.ok (Scalar.int 1)))
      World.start "connection refused" rfl).1,
   rfl⟩


/-- C2 as stated fails: when `db.Prepare` fails, the check of the first table
fails with "preparing table check failed: connection lost", which is neither
"table 'users' not found" nor "table check failed: " followed by a message. -/
theorem C2_first_failing_table_counterexample :
    (healthz { tables := ["users"], queries := [], exposeQueryResults := false }
        (prepareFailsDB "connection lost" sampleAnswer) World.start).1
      = { code := 503,
          body := { Status := "unhealthy",
                    Error := "preparing table check failed: connection lost", Results := [] } } ∧
    "preparing table check failed: connection lost" ≠ "table 'users' not found" ∧
    ∀ m : String, "preparing table check failed: connection lost" ≠ "table check failed: " ++ m := by
  refine ⟨rfl, by decide, ?_⟩
  intro m h
  have h2 := congrArg (fun s : String => s.data.head?) h
  simp [String.data_append] at h2

/-- C2, amended: when the ping succeeds, the checks of the tables before index
`k` succeed and the check of the table `t` at index `k` fails with `e`, the
handler answers 503 with status "unhealthy" and error `e`, and stops in the
world right after that check: `checkTableExists` has been called `k + 1` times
and `checkQuery` never, whatever follows `t`.  The error is one of three:
"preparing table check failed: <message>" when the statement cannot be
prepared, "table check failed: <message>" when the lookup errors with
`message`, and "table '<t>' not found" when the catalog count is zero. -/
theorem C2_first_failing_table (d : DB σ ρ) (pre post queries : List String) (t : String)
    (expose : Bool) (w w1 w2 : World σ) (e : String)
    (hping : dbPing d w = (none, w1))
    (hpre : checkTables d pre w1 = (none, w2))
    (hfail : (checkTableExists d t w2).1 = some e) :
    (healthz { tables := pre ++ t :: post, queries := queries, exposeQueryResults := expose } d w).1
      = { code := 503, body := { Status := "unhealthy", Error := e, Results := [] } } ∧
    (healthz { tables := pre ++ t :: post, queries := queries, exposeQueryResults := expose } d w).2
      = (checkTableExists d t w2).2 ∧
    tableCheckCalls
      (healthz { tables := pre ++ t :: post, queries := queries, exposeQueryResults := expose } d w).2.log
      = tableCheckCalls w.log + pre.length + 1 ∧
    queryCheckCalls
      (healthz { tables := pre ++ t :: post, queries := queries, exposeQueryResults := expose } d w).2.log
      = queryCheckCalls w.log ∧
    ((∃ m, (d.prepare tableCountSQL w2.db).1 = some m ∧
        e = "preparing table check failed: " ++ m) ∨
     ((d.prepare tableCountSQL w2.db).1 = none ∧
        ∃ m, (d.stmtQueryRowScan t (d.prepare tableCountSQL w2.db).2).1 = Except.error m ∧
          e = "table check failed: " ++ m) ∨
     ((d.prepare tableCountSQL w2.db).1 = none ∧
        (d.stmtQueryRowScan t (d.prepare tableCountSQL w2.db).2).1 = Except.ok 0 ∧
        e = "table '" ++ t ++ "' not found")) := by
  have hrun : healthz (Config.mk (pre ++ t :: post) queries expose) d w
      = (unhealthy e, (checkTableExists d t w2).2) := by
    rcases hc : checkTableExists d t w2 with ⟨r, w3⟩
    rw [hc] at hfail
    simp only at hfail
    subst hfail
    simp [healthz, hping, checkTables_append, hpre, checkTables, hc]
  have hw1 : w1 = (dbPing d w).2 := by rw [hping]
  have hcalls := checkTables_ok_calls d pre w1 w2 hpre
  have ht := checkTableExists_tableCheckCalls d t w2
  have hq := checkTableExists_queryCheckCalls d t w2
  have hp1 : tableCheckCalls w1.log = tableCheckCalls w.log := by
    rw [hw1]; simp [dbPing, tableCheckCalls]
  have hp2 : queryCheckCalls w1.log = queryCheckCalls w.log := by
    rw [hw1]; simp [dbPing, queryCheckCalls]
  rw [hrun]
  refine ⟨rfl, rfl, by simp only; omega, by simp only; omega, ?_⟩
  cases hprep : (d.prepare tableCountSQL w2.db).1 with
  | some m =>
    left
    have : (checkTableExists d t w2).1 = some ("preparing table check failed: " ++ m) := by
      simp [checkTableExists, dbPrepare, World.record, hprep]
    rw [this] at hfail
    exact ⟨m, rfl, (Option.some.inj hfail).symm⟩
  | none =>
    right
    cases hscan : (d.stmtQueryRowScan t (d.prepare tableCountSQL w2.db).2).1 with
    | error m =>
      left
      have : (checkTableExists d t w2).1 = some ("table check failed: " ++ m) := by
        simp [checkTableExists, dbPrepare, dbStmtQueryRowScan, World.record, hprep, hscan]
      rw [this] at hfail
      exact ⟨rfl, m, rfl, (Option.some.inj hfail).symm⟩
    | ok count =>
      right
      by_cases hc : count = 0
      · subst hc
        have : (checkTableExists d t w2).1 = some ("table '" ++ t ++ "' not found") := by
          simp [checkTableExists, dbPrepare, dbStmtQueryRowScan, World.record, hprep, hscan]
        rw [this] at hfail
        exact ⟨rfl, rfl, (Option.some.inj hfail).symm⟩
      · have : (checkTableExists d t w2).1 = none := by
          simp [checkTableExists, dbPrepare, dbStmtQueryRowScan, World.record, hprep, hscan, hc]
        rw [this] at hfail
        simp at hfail

/-- Witness of C2: tables = ["users", "ghost", "orders"] and a query, the flag
on; `users` exists, `ghost` does not and the lookup of `orders` would fail: the
answer names `ghost`, and the log ends with the lookup of `ghost`. -/
theorem C2_first_failing_table_witness :
    (healthz { tables := ["users", "ghost", "orders"], queries := ["SELECT 1"],
               exposeQueryResults := true }
        (stubDB none sampleCount sampleAnswer) World.start).1
      = { code := 503,
          body := { Status := "unhealthy", Error := "table 'ghost' not found", Results := [] } } ∧
    (healthz { tables := ["users", "ghost", "orders"], queries := ["SELECT 1"],
               exposeQueryResults := true }
        (stubDB none sampleCount sampleAnswer) World.start).2.log
      = [Event.ping,
         Event.checkTableExists "users", Event.prepare tableCountSQL,
         Event.stmtQueryRow "users", Event.stmtClose,
         Event.checkTableExists "ghost", Event.prepare tableCountSQL,
         Event.stmtQueryRow "ghost", Event.stmtClose] :=
  ⟨(C2_first_failing_table (stubDB none sampleCount sampleAnswer)
      ["users"] ["orders"] ["SELECT 1"] "ghost" true World.start _ _
      "table 'ghost' not found" rfl rfl rfl).1,
   rfl⟩

/-- C3: a query that is empty once trimmed makes `checkQuery` return the error
"empty query" with the state of the database untouched and only the call
itself logged; and when the ping, the tables and the queries before it succeed,
the handler answers 503 with status "unhealthy" and error "empty query". -/
theorem C3_empty_query (d : DB σ ρ) (tables pre post : List String) (q : String) (expose : Bool)
    (w w1 w2 w3 : World σ) (rs : List ρ)
    (hq : trimSpace q = "")
    (hping : dbPing d w = (none, w1))
    (htab : checkTables d tables w1 = (none, w2))
    (hpre : runQueries d pre [] w2 = (Except.ok rs, w3)) :
    (∀ v : World σ, checkQuery d q v = (Except.error "empty query", v.record (Event.checkQuery q))) ∧
    (∀ v : World σ, (checkQuery d q v).2.db = v.db ∧
      dbCalls (checkQuery d q v).2.log = dbCalls v.log) ∧
    healthz { tables := tables, queries := pre ++ q :: post, exposeQueryResults := expose } d w
      = ({ code := 503, body := { Status := "unhealthy", Error := "empty query", Results := [] } },
         w3.record (Event.checkQuery q)) := by
  have hcq : ∀ v : World σ,
      checkQuery d q v = (Except.error "empty query", v.record (Event.checkQuery q)) := by
    intro v; simp [checkQuery, hq]
  refine ⟨hcq, ?_, ?_⟩
  · intro v
    rw [hcq v]
    simp [World.record, dbCalls]
  · simp [healthz, hping, htab, runQueries_append, hpre, runQueries, hcq, unhealthy,
      StatusServiceUnavailable]

/-- Witness of C3: the query list ["SELECT 1", "  "]. -/
theorem C3_empty_query_witness :
    healthz { tables := [], queries := ["SELECT 1", "  "], exposeQueryResults := true }
        (stubDB none (fun _ => Except.ok 1) (fun _ => Except.ok (Scalar.int 1))) World.start
      = ({ code := 503, body := { Status := "unhealthy", Error := "empty query", Results := [] } },
         World.record
           (runQueries (stubDB none (fun _ => Except.ok 1) (fun _ => Except.ok (Scalar.int 1)))
             ["SELECT 1"] [] (World.record World.start Event.ping)).2
           (Event.checkQuery "  ")) :=
  (C3_empty_query (stubDB none (fun _ => Except.ok 1) (fun _ => Except.ok (Scalar.int 1)))
    [] ["SELECT 1"] [] "  " true World.start _ _ _ [Scalar.int 1]
    (by decide) rfl rfl (by rfl)).2.2


/-- C4 as stated fails: with the flag on and a query answered by a float64 NaN,
the ping and the query succeed and the handler has collected the result, but
the client receives 200 with an empty body: no status and no results. -/
theorem C4_results_in_order_counterexample :
    (healthz { tables := [], queries := ["SELECT 'NaN'::float8"], exposeQueryResults := true }
        (stubDB none sampleCount sampleAnswer) World.start).1
      = { code := 200,
          body := { Status := "ok", Error := "", Results := [Scalar.float Float64.nan] } } ∧
    (serve Scalar.toJSON
        { tables := [], queries := ["SELECT 'NaN'::float8"], exposeQueryResults := true }
        (stubDB none sampleCount sampleAnswer) World.start).1
      = { code := 200, body := none } :=
  ⟨rfl, rfl⟩

/-- C4, amended: with the exposure flag on, when the ping, the table checks and
all the queries succeed, the handler sends 200 and builds the response with
status "ok", no error and the collected results: one per configured query, in
order, the `i`-th being the answer of the database to the trimmed `i`-th query,
asked in the state reached after the first `i` queries.  When every result can
be encoded, the body written is that response, the results in the same order;
when one cannot, the body is empty. -/
theorem C4_results_in_order (d : DB σ ρ) (enc : ρ → Option JSONValue)
    (tables queries : List String) (w w1 w2 w3 : World σ) (rs : List ρ)
    (hping : dbPing d w = (none, w1))
    (htab : checkTables d tables w1 = (none, w2))
    (hrun : runQueries d queries [] w2 = (Except.ok rs, w3)) :
    healthz { tables := tables, queries := queries, exposeQueryResults := true } d w
      = ({ code := 200, body := { Status := "ok", Error := "", Results := rs } }, w3) ∧
    rs.length = queries.length ∧
    (∀ (i : Nat) (hi : i < queries.length), ∃ (v : World σ) (r : ρ),
      runQueries d (queries.take i) [] w2 = (Except.ok (rs.take i), v) ∧
      trimSpace (queries.get ⟨i, hi⟩) ≠ "" ∧
      (d.queryRowScan (trimSpace (queries.get ⟨i, hi⟩)) v.db).1 = Except.ok r ∧
      rs[i]? = some r) ∧
    (serve enc { tables := tables, queries := queries, exposeQueryResults := true } d w).1.code
      = 200 ∧
    (∀ items, mapOption enc rs = some items →
      items.length = rs.length ∧
      (∀ (i : Nat) (hi : i < rs.length), items[i]? = enc (rs.get ⟨i, hi⟩)) ∧
      (serve enc { tables := tables, queries := queries, exposeQueryResults := true } d w).1.body
        = some (("status", JSONField.value (JSONValue.str "ok")) ::
            (if items.isEmpty then [] else [("results", JSONField.array items)]))) ∧
    ((∃ v ∈ rs, enc v = none) →
      (serve enc { tables := tables, queries := queries, exposeQueryResults := true } d w).1.body
        = none) := by
  have hout : healthz (Config.mk tables queries true) d w
      = (⟨200, ⟨"ok", "", rs⟩⟩, w3) := by
    simp [healthz, hping, htab, hrun, StatusOK]
  refine ⟨hout, (runQueries_ok_calls d queries w2 w3 rs hrun).1, ?_, ?_, ?_, ?_⟩
  · intro i hi
    have hsplit : queries = queries.take i ++ (queries.get ⟨i, hi⟩ :: queries.drop (i + 1)) := by
      simp
    rw [hsplit] at hrun
    obtain ⟨ra, rb, u, h1, h2, hrs⟩ := runQueries_append_ok d _ _ w2 w3 rs hrun
    have hlen := (runQueries_ok_calls d _ w2 u ra h1).1
    simp only [runQueries] at h2
    rcases hc : checkQuery d (queries.get ⟨i, hi⟩) u with ⟨err | r, u1⟩
    · rw [hc] at h2; simp at h2
    · rw [hc] at h2
      simp only [List.nil_append] at h2
      rw [runQueries_acc] at h2
      rcases hb : runQueries d (queries.drop (i + 1)) [] u1 with ⟨err | rc, u2⟩
      · rw [hb] at h2; simp at h2
      · rw [hb] at h2
        simp only [Prod.mk.injEq, Except.ok.injEq] at h2
        have hra : ra.length = i := by
          rw [hlen, List.length_take]; omega
        have hq := checkQuery_ok d _ u u1 r hc
        refine ⟨u, r, ?_, hq.1, hq.2, ?_⟩
        · rw [h1, hrs, List.take_left' hra]
        · rw [hrs, ← h2.1, ← hra, List.getElem?_append_right (le_refl _)]
          simp
  · simp only [serve, hout]
  · intro items hitems
    refine ⟨mapOption_length enc rs items hitems, ?_, ?_⟩
    · intro i hi
      rw [mapOption_getElem? enc rs items hitems i hi]
    · simp only [serve, hout]
      rw [toJSON_of_encoded enc _ items hitems]
      simp
  · rintro ⟨v, hv, hnone⟩
    simp only [serve, hout]
    exact toJSON_of_not_encoded enc _ (mapOption_none_of_mem enc rs v hv hnone)

/-- Witness of C4: three queries answered by the integer 1, the string "up"
and the bool true, with the flag on: 200 and the three results in that order. -/
theorem C4_results_in_order_witness :
    (serve Scalar.toJSON
        { tables := ["users"], queries := ["SELECT 1", "SELECT 'up'", "SELECT true"],
          exposeQueryResults := true }
        (stubDB none sampleCount sampleAnswer) World.start).1.body
      = some [("status", JSONField.value (JSONValue.str "ok")),
              ("results", JSONField.array
                [JSONValue.num ((1 : Int) : ℚ), JSONValue.str "up", JSONValue.bool true])] :=
  ((C4_results_in_order (stubDB none sampleCount sampleAnswer) Scalar.toJSON
      ["users"] ["SELECT 1", "SELECT 'up'", "SELECT true"] World.start _ _ _
      [Scalar.int 1, Scalar.str [117, 112], Scalar.bool true] rfl rfl (by rfl)).2.2.2.2.1
    [JSONValue.num ((1 : Int) : ℚ), JSONValue.str "up", JSONValue.bool true] (by rfl)).2.2


/-- C5 as stated fails: with a query answered by a float64 NaN, the flag off
gives 200 and the body with status "ok", while the flag on gives 200 and an
empty body, which has no status field. -/
theorem C5_flag_off_hides_results_counterexample :
    (serve Scalar.toJSON
        { tables := [], queries := ["SELECT 'NaN'::float8"], exposeQueryResults := false }
        (stubDB none sampleCount sampleAnswer) World.start).1
      = { code := 200, body := some [("status", JSONField.value (JSONValue.str "ok"))] } ∧
    (serve Scalar.toJSON
        { tables := [], queries := ["SELECT 'NaN'::float8"], exposeQueryResults := true }
        (stubDB none sampleCount sampleAnswer) World.start).1
      = { code := 200, body := none } :=
  ⟨rfl, rfl⟩

/-- C5, amended: with the exposure flag off the response carries no results and
its body is always written, without a `results` key.  The run is the one of the
same request with the flag on: same status code, same status and error in the
response built, same final world, so the same operations were sent to the
database; and the body written with the flag on, when it is not empty, is the
body written with the flag off followed by nothing but `results`.  The queries
are executed all the same: when the ping, the table checks and all the queries
succeed, the flag-off answer is 200 with the body {status: ok}, `checkQuery` has
been called once per configured query and every query, trimmed, has been sent
to the database after the table checks. -/
theorem C5_flag_off_hides_results (d : DB σ ρ) (enc : ρ → Option JSONValue)
    (tables queries : List String) (w : World σ) :
    (serve enc (Config.mk tables queries false) d w).1.code
      = (serve enc (Config.mk tables queries true) d w).1.code ∧
    (healthz (Config.mk tables queries false) d w).1.body.Status
      = (healthz (Config.mk tables queries true) d w).1.body.Status ∧
    (healthz (Config.mk tables queries false) d w).1.body.Error
      = (healthz (Config.mk tables queries true) d w).1.body.Error ∧
    (healthz (Config.mk tables queries false) d w).1.body.Results = [] ∧
    (serve enc (Config.mk tables queries false) d w).2
      = (serve enc (Config.mk tables queries true) d w).2 ∧
    (∃ base : JSONObject,
      (serve enc (Config.mk tables queries false) d w).1.body = some base ∧
      "results" ∉ JSONObject.keys base ∧
      ((serve enc (Config.mk tables queries true) d w).1.body = none ∨
       ∃ extra : JSONObject,
        (serve enc (Config.mk tables queries true) d w).1.body = some (base ++ extra) ∧
        ∀ k ∈ JSONObject.keys extra, k = "results")) ∧
    (∀ (w1 w2 w3 : World σ) (rs : List ρ),
      dbPing d w = (none, w1) →
      checkTables d tables w1 = (none, w2) →
      runQueries d queries [] w2 = (Except.ok rs, w3) →
      serve enc (Config.mk tables queries false) d w
        = ({ code := 200, body := some [("status", JSONField.value (JSONValue.str "ok"))] }, w3) ∧
      queryCheckCalls w3.log = queryCheckCalls w.log + queries.length ∧
      ∃ ops : List Event, w3.log = w2.log ++ ops ∧
        ∀ q ∈ queries, Event.queryRow (trimSpace q) ∈ ops) := by
  have hoff := healthz_expose_off d tables queries w
  refine ⟨?_, ?_, ?_, ?_, ?_, ?_, ?_⟩
  · simp only [serve, hoff]
  · rw [hoff]
  · rw [hoff]
  · rw [hoff]
  · simp only [serve, hoff]
  · simp only [serve]
    rw [hoff]
    simp only
    refine ⟨[("status", JSONField.value
        (JSONValue.str (healthz (Config.mk tables queries true) d w).1.body.Status))] ++
      (if (healthz (Config.mk tables queries true) d w).1.body.Error = "" then []
       else [("error", JSONField.value
        (JSONValue.str (healthz (Config.mk tables queries true) d w).1.body.Error))]), ?_, ?_, ?_⟩
    · simp [HealthResponse.toJSON, mapOption]
    · by_cases he : (healthz (Config.mk tables queries true) d w).1.body.Error = "" <;>
        simp [JSONObject.keys, he]
    · cases hm : mapOption enc (healthz (Config.mk tables queries true) d w).1.body.Results with
      | none => left; exact toJSON_of_not_encoded enc _ hm
      | some items =>
        right
        refine ⟨if items.isEmpty then [] else [("results", JSONField.array items)], ?_, ?_⟩
        · rw [toJSON_of_encoded enc _ items hm]
        · intro k hk
          by_cases hi : items.isEmpty = true
          · simp [hi, JSONObject.keys] at hk
          · simp [hi, JSONObject.keys] at hk
            exact hk
  · intro w1 w2 w3 rs hping htab hrun
    have hout : healthz (Config.mk tables queries false) d w
        = (⟨200, ⟨"ok", "", []⟩⟩, w3) := by
      simp [healthz, hping, htab, hrun, StatusOK]
    refine ⟨?_, ?_, runQueries_ok_log d queries [] w2 w3 rs hrun⟩
    · simp [serve, hout, HealthResponse.toJSON, mapOption]
    · have c1 := dbPing_calls d w
      rw [hping] at c1
      have c2 := checkTables_ok_calls d tables w1 w2 htab
      have c3 := runQueries_ok_calls d queries w2 w3 rs hrun
      simp only at c1
      omega

/-- Witness of C5: a table and two queries with the flag off: 200 with the body
{status: ok}, and the log shows both queries sent to the database. -/
theorem C5_flag_off_hides_results_witness :
    serve Scalar.toJSON
        { tables := ["users"], queries := ["SELECT 1", " SELECT 'up' "],
          exposeQueryResults := false }
        (stubDB none sampleCount sampleAnswer) World.start
      = ({ code := 200, body := some [("status", JSONField.value (JSONValue.str "ok"))] },
         { db := (),
           log := [Event.ping,
                   Event.checkTableExists "users", Event.prepare tableCountSQL,
                   Event.stmtQueryRow "users", Event.stmtClose,
                   Event.checkQuery "SELECT 1", Event.queryRow "SELECT 1",
                   Event.checkQuery " SELECT 'up' ", Event.queryRow "SELECT 'up'"] }) :=
  ((C5_flag_off_hides_results (stubDB none sampleCount sampleAnswer) Scalar.toJSON
      ["users"] ["SELECT 1", " SELECT 'up' "] World.start).2.2.2.2.2.2
    _ _ _ [Scalar.int 1, Scalar.str [117, 112]] rfl rfl (by rfl)).1

/-- C6: when the ping, the table checks and the queries before index `k`
succeed and the query `q` at index `k` fails with `e`, the handler answers 503
with status "unhealthy", error `e` and no results, whatever the exposure flag
and whatever was collected, and stops in the world right after that query:
`checkQuery` has been called `k + 1` times.  For a failure of the execution or
of the scan with message `m`, `e` is "query failed: " followed by `m`. -/
theorem C6_first_failing_query (d : DB σ ρ) (tables pre post : List String) (q : String)
    (expose : Bool) (w w1 w2 w3 : World σ) (rs : List ρ) (e : String)
    (hping : dbPing d w = (none, w1))
    (htab : checkTables d tables w1 = (none, w2))
    (hpre : runQueries d pre [] w2 = (Except.ok rs, w3))
    (hfail : (checkQuery d q w3).1 = Except.error e) :
    healthz { tables := tables, queries := pre ++ q :: post, exposeQueryResults := expose } d w
      = ({ code := 503, body := { Status := "unhealthy", Error := e, Results := [] } },
         (checkQuery d q w3).2) ∧
    queryCheckCalls
        (healthz { tables := tables, queries := pre ++ q :: post, exposeQueryResults := expose }
          d w).2.log = queryCheckCalls w.log + pre.length + 1 ∧
    (trimSpace q ≠ "" → ∀ m, (d.queryRowScan (trimSpace q) w3.db).1 = Except.error m →
      e = "query failed: " ++ m) := by
  have hout : healthz (Config.mk tables (pre ++ q :: post) expose) d w
      = (⟨503, ⟨"unhealthy", e, []⟩⟩, (checkQuery d q w3).2) := by
    rcases hc : checkQuery d q w3 with ⟨r, w4⟩
    rw [hc] at hfail
    simp only at hfail
    subst hfail
    simp [healthz, hping, htab, runQueries_append, hpre, runQueries, hc, unhealthy,
      StatusServiceUnavailable]
  refine ⟨hout, ?_, ?_⟩
  · rw [hout]
    have c1 := dbPing_calls d w
    rw [hping] at c1
    have c2 := checkTables_ok_calls d tables w1 w2 htab
    have c3 := runQueries_ok_calls d pre w2 w3 rs hpre
    have c4 := checkQuery_calls d q w3
    simp only at c1 ⊢
    omega
  · intro hq m hm
    have : (checkQuery d q w3).1 = Except.error ("query failed: " ++ m) := by
      simp [checkQuery, hq, dbQueryRowScan, World.record, hm]
    rw [this] at hfail
    exact (Except.error.inj hfail).symm

/-- Witness of C6: the second of two queries fails after the first returned 1,
with the flag on. -/
theorem C6_first_failing_query_witness :
    (healthz { tables := [], queries := ["SELECT 1", "SELECT x", "SELECT 2"],
               exposeQueryResults := true }
        (stubDB none (fun _ => Except.ok 1)
          (fun q => if q = "SELECT x" then Except.error "no column x" else Except.ok (Scalar.int 1)))
        World.start).1
      = { code := 503,
          body := { Status := "unhealthy", Error := "query failed: no column x", Results := [] } } :=
  congrArg Prod.fst
    (C6_first_failing_query
      (stubDB none (fun _ => Except.ok 1)
        (fun q => if q = "SELECT x" then Except.error "no column x" else Except.ok (Scalar.int 1)))
      [] ["SELECT 1"] ["SELECT 2"] "SELECT x" true World.start _ _ _ [Scalar.int 1]
      "query failed: no column x" rfl rfl (by rfl) (by rfl)).1


/-- C7: with no table and no query configured, whatever the exposure flag, a
successful ping gives 200 and the response with status "ok", no error and no
results; the body written is exactly the object with the one key `status`; and
the handler stops in the world right after the ping, the log having gained the
ping alone. -/
theorem C7_nothing_configured (d : DB σ ρ) (enc : ρ → Option JSONValue) (expose : Bool)
    (w : World σ) (hping : (d.pingContext w.db).1 = none) :
    (healthz { tables := [], queries := [], exposeQueryResults := expose } d w).1
      = { code := 200, body := { Status := "ok", Error := "", Results := [] } } ∧
    HealthResponse.toJSON enc
        (healthz { tables := [], queries := [], exposeQueryResults := expose } d w).1.body
      = some [("status", JSONField.value (JSONValue.str "ok"))] ∧
    (serve enc { tables := [], queries := [], exposeQueryResults := expose } d w).1
      = { code := 200, body := some [("status", JSONField.value (JSONValue.str "ok"))] } ∧
    (healthz { tables := [], queries := [], exposeQueryResults := expose } d w).2
      = (dbPing d w).2 ∧
    (healthz { tables := [], queries := [], exposeQueryResults := expose } d w).2.log
      = w.log ++ [Event.ping] := by
  have h : healthz (Config.mk [] [] expose) d w
      = (⟨200, ⟨"ok", "", []⟩⟩, (dbPing d w).2) := by
    cases expose <;> simp [healthz, dbPing, hping, checkTables, runQueries, StatusOK]
  simp only [serve]
  rw [h]
  refine ⟨rfl, ?_, ?_, rfl, rfl⟩
  · simp [HealthResponse.toJSON, mapOption]
  · simp [HealthResponse.toJSON, mapOption]

/-- Witness of C7: a reachable database, the flag on. -/
theorem C7_nothing_configured_witness :
    HealthResponse.toJSON Scalar.toJSON
        (healthz { tables := [], queries := [], exposeQueryResults := true }
          (stubDB none (fun _ => Except.ok 1) (fun _ => Except.ok (Scalar.int 1)))
          World.start).1.body
      = some [("status", JSONField.value (JSONValue.str "ok"))] :=
  (C7_nothing_configured (stubDB none (fun _ => Except.ok 1) (fun _ => Except.ok (Scalar.int 1)))
    Scalar.toJSON true World.start rfl).2.1

/-- C8 as stated fails: with the flag on and a query answered by a float64 NaN
the client receives 200 with an empty body, which is neither of the two
shapes. -/
theorem C8_two_shapes_counterexample :
    (serve Scalar.toJSON
        { tables := ["users"], queries := ["SELECT 1", "SELECT 'NaN'::float8"],
          exposeQueryResults := true }
        (stubDB none sampleCount sampleAnswer) World.start).1
      = { code := 200, body := none } :=
  rfl

/-- C8, amended: every answer is of one of three shapes.  Code 503 with the body
holding status "unhealthy", the error when it is not empty, and no results.
Code 200 with the body holding status "ok", no error, and the results when
there are some, which needs the exposure flag on.  Or, with the flag on and a
collected result that cannot be encoded, code 200 with an empty body.  No other
status code or status is produced. -/
theorem C8_three_shapes (cfg : Config) (d : DB σ ρ) (enc : ρ → Option JSONValue) (w : World σ) :
    ((serve enc cfg d w).1.code = 503 ∧
      (healthz cfg d w).1.body.Status = "unhealthy" ∧
      (healthz cfg d w).1.body.Results = [] ∧
      (serve enc cfg d w).1.body
        = some (("status", JSONField.value (JSONValue.str "unhealthy")) ::
            (if (healthz cfg d w).1.body.Error = "" then []
             else [("error", JSONField.value (JSONValue.str (healthz cfg d w).1.body.Error))]))) ∨
    ((serve enc cfg d w).1.code = 200 ∧
      (healthz cfg d w).1.body.Status = "ok" ∧
      (healthz cfg d w).1.body.Error = "" ∧
      ((healthz cfg d w).1.body.Results ≠ [] → cfg.exposeQueryResults = true) ∧
      ∃ items, mapOption enc (healthz cfg d w).1.body.Results = some items ∧
        (serve enc cfg d w).1.body
          = some (("status", JSONField.value (JSONValue.str "ok")) ::
              (if items.isEmpty then [] else [("results", JSONField.array items)]))) ∨
    ((serve enc cfg d w).1.code = 200 ∧
      (healthz cfg d w).1.body.Status = "ok" ∧
      cfg.exposeQueryResults = true ∧
      (∃ v ∈ (healthz cfg d w).1.body.Results, enc v = none) ∧
      (serve enc cfg d w).1.body = none) := by
  rcases healthz_shape cfg d w with ⟨hc, hs, he, hr⟩ | ⟨hc, hs, hr⟩
  · cases hm : mapOption enc (healthz cfg d w).1.body.Results with
    | some items =>
      right; left
      refine ⟨hc, hs, he, hr, items, rfl, ?_⟩
      simp only [serve]
      rw [toJSON_of_encoded enc _ items hm, hs, he]
      simp
    | none =>
      right; right
      obtain ⟨v, hv, hnone⟩ := mem_of_mapOption_none enc _ hm
      refine ⟨hc, hs, hr (List.ne_nil_of_mem hv), ⟨v, hv, hnone⟩, ?_⟩
      simp only [serve]
      exact toJSON_of_not_encoded enc _ hm
  · left
    refine ⟨hc, hs, hr, ?_⟩
    simp only [serve]
    rw [toJSON_of_encoded enc _ [] (by rw [hr]; rfl), hs]
    simp

/-- Witness of C8: each of the three shapes is produced.  A refused connection
gives 503 with status "unhealthy" and the error; a query answered 1 with the
flag on gives 200 with status "ok" and the results; a query answered by a NaN
with the flag on gives 200 with an empty body. -/
theorem C8_three_shapes_witness :
    (serve Scalar.toJSON
        { tables := ["users"], queries := ["SELECT 1"], exposeQueryResults := true }
        (stubDB (some "connection refused") sampleCount sampleAnswer) World.start).1
      = { code := 503,
          body := some [("status", JSONField.value (JSONValue.str "unhealthy")),
                        ("error", JSONField.value (JSONValue.str "connection refused"))] } ∧
    (serve Scalar.toJSON
        { tables := ["users"], queries := ["SELECT 1"], exposeQueryResults := true }
        (stubDB none sampleCount sampleAnswer) World.start).1
      = { code := 200,
          body := some [("status", JSONField.value (JSONValue.str "ok")),
                        ("results", JSONField.array [JSONValue.num ((1 : Int) : ℚ)])] } ∧
    (serve Scalar.toJSON
        { tables := ["users"], queries := ["SELECT 'NaN'::float8"], exposeQueryResults := true }
        (stubDB none sampleCount sampleAnswer) World.start).1
      = { code := 200, body := none } ∧
    (serve Scalar.toJSON
        { tables := ["users"], queries := ["SELECT 'NaN'::float8"], exposeQueryResults := true }
        (stubDB none sampleCount sampleAnswer) World.start).1.code = 200 ∧
    ∃ v ∈ (healthz
        { tables := ["users"], queries := ["SELECT 'NaN'::float8"], exposeQueryResults := true }
        (stubDB none sampleCount sampleAnswer) World.start).1.body.Results,
      Scalar.toJSON v = none := by
  refine ⟨rfl, rfl, rfl, ?_⟩
  rcases C8_three_shapes
      { tables := ["users"], queries := ["SELECT 'NaN'::float8"], exposeQueryResults := true }
      (stubDB none sampleCount sampleAnswer) Scalar.toJSON World.start with
    h | h | h
  · exact absurd h.2.1 (by decide)
  · obtain ⟨_, _, _, _, items, hitems, _⟩ := h
    have hnone : mapOption Scalar.toJSON (healthz
        { tables := ["users"], queries := ["SELECT 'NaN'::float8"], exposeQueryResults := true }
        (stubDB none sampleCount sampleAnswer) World.start).1.body.Results = none := rfl
    rw [hnone] at hitems
    exact absurd hitems (by simp)
  · exact ⟨h.1, h.2.2.2.1⟩

/-- C10: an empty `PG_HEALTHY_QUERIES` gives no query; a non-empty value gives
the pieces of `strings.Split` on ";;", none trimmed or dropped: one more than
the occurrences of ";;" counted from the left, and joined with ";;" they give
the value back.  When one of the pieces is empty once trimmed, every request is
answered 503 with status "unhealthy", whatever the tables, the flag and the
database. -/
theorem C10_queries_kept_as_split (customQueries : String) :
    (customQueries = "" → parseQueries customQueries = []) ∧
    (customQueries ≠ "" →
      parseQueries customQueries = stringsSplit customQueries ";;" ∧
      (parseQueries customQueries).length = stringsCount customQueries ";;" + 1 ∧
      stringsJoin (parseQueries customQueries) ";;" = customQueries) ∧
    (∀ q ∈ parseQueries customQueries, trimSpace q = "" →
      ∀ (σ ρ : Type) (d : DB σ ρ) (tables : List String) (expose : Bool) (w : World σ),
        (healthz { tables := tables, queries := parseQueries customQueries,
                   exposeQueryResults := expose } d w).1.code = 503 ∧
        (healthz { tables := tables, queries := parseQueries customQueries,
                   exposeQueryResults := expose } d w).1.body.Status = "unhealthy") := by
  refine ⟨?_, ?_, ?_⟩
  · intro h; simp [parseQueries, h]
  · intro h
    have hp : parseQueries customQueries = stringsSplit customQueries ";;" := by
      simp [parseQueries, h]
    rw [hp]
    exact ⟨rfl, length_stringsSplit _ _, stringsJoin_stringsSplit _ _ (by decide)⟩
  · intro q hmem hq σ ρ d tables expose w
    exact healthz_empty_entry d tables _ expose w q hmem hq

/-- Witness of C10: the value "SELECT 1;;" gives the two queries "SELECT 1" and
"", and the handler answers 503 to a database that answers everything. -/
theorem C10_queries_kept_as_split_witness :
    parseQueries "SELECT 1;;" = ["SELECT 1", ""] ∧
    (healthz { tables := [], queries := parseQueries "SELECT 1;;", exposeQueryResults := true }
      (stubDB none (fun _ => Except.ok 1) (fun _ => Except.ok (Scalar.int 1)))
      World.start).1.code = 503 :=
  ⟨by decide,
   ((C10_queries_kept_as_split "SELECT 1;;").2.2 "" (by decide) (by decide) Unit Scalar
      (stubDB none (fun _ => Except.ok 1) (fun _ => Except.ok (Scalar.int 1)))
      [] true World.start).1⟩


/-- C9 as stated fails.  With the flag on, four queries answered by the byte
slice `[104, 105]`, the integer 2^53 + 1, a timestamp and the string of the
single byte 255 give a body whose results decode to the string "aGk=", the
number 2^53, the string of the timestamp's text and the string of U+FFFD: none
is equal to what the query produced.  And a query answered by a float64 NaN
gives an empty body, with nothing to decode. -/
theorem C9_round_trip_counterexample :
    ((serve Scalar.toJSON
        { tables := [],
          queries := ["SELECT 'hi'::bytea", "SELECT 9007199254740993", "SELECT now()",
                      "SELECT chr(255)"],
          exposeQueryResults := true }
        (stubDB none sampleCount sampleAnswer) World.start).1.body.bind decodeResponse).map
        (fun r => r.Results)
      = some [Decoded.str [97, 71, 107, 61], Decoded.number 9007199254740992,
              Decoded.str (utf8Encode "2024-05-01T12:00:00Z".data),
              Decoded.str [239, 191, 189]] ∧
    Scalar.sameAs (Scalar.bytes [104, 105]) (Decoded.str [97, 71, 107, 61]) = false ∧
    Scalar.sameAs (Scalar.int 9007199254740993) (Decoded.number 9007199254740992) = false ∧
    Scalar.sameAs (Scalar.time { marshalJSON := some "2024-05-01T12:00:00Z" })
      (Decoded.str (utf8Encode "2024-05-01T12:00:00Z".data)) = false ∧
    Scalar.sameAs (Scalar.str [255]) (Decoded.str [239, 191, 189]) = false ∧
    (serve Scalar.toJSON
        { tables := [], queries := ["SELECT 'NaN'::float8"], exposeQueryResults := true }
        (stubDB none sampleCount sampleAnswer) World.start).1
      = { code := 200, body := none } := by
  refine ⟨?_, rfl, ?_, rfl, by decide, rfl⟩
  · have hb : (serve Scalar.toJSON
        { tables := [],
          queries := ["SELECT 'hi'::bytea", "SELECT 9007199254740993", "SELECT now()",
                      "SELECT chr(255)"],
          exposeQueryResults := true }
        (stubDB none sampleCount sampleAnswer) World.start).1.body
        = some ([("status", JSONField.value (JSONValue.str "ok"))] ++
            (if ("" : String) = "" then []
             else [("error", JSONField.value (JSONValue.str ""))]) ++
            (if List.isEmpty [JSONValue.str "aGk=", JSONValue.num ((9007199254740993 : Int) : ℚ),
                  JSONValue.str "2024-05-01T12:00:00Z", JSONValue.str (String.mk [Char.ofNat 0xFFFD])]
             then []
             else [("results", JSONField.array
                [JSONValue.str "aGk=", JSONValue.num ((9007199254740993 : Int) : ℚ),
                  JSONValue.str "2024-05-01T12:00:00Z",
                  JSONValue.str (String.mk [Char.ofNat 0xFFFD])])])) := rfl
    rw [hb, Option.some_bind, decodeResponse_body]
    have hn : nearestFloat64 ((9007199254740993 : Int) : ℚ) = some 9007199254740992 := by
      have := nearestFloat64_two_pow_53_add_one
      exact_mod_cast this
    have d1 : JSONValue.decode (JSONValue.str "aGk=") = some (Decoded.str [97, 71, 107, 61]) := by
      decide
    have d2 : JSONValue.decode (JSONValue.num ((9007199254740993 : Int) : ℚ))
        = some (Decoded.number 9007199254740992) := by
      rw [JSONValue.decode, hn]; rfl
    have d3 : JSONValue.decode (JSONValue.str "2024-05-01T12:00:00Z")
        = some (Decoded.str (utf8Encode "2024-05-01T12:00:00Z".data)) := rfl
    have d4 : JSONValue.decode (JSONValue.str (String.mk [Char.ofNat 0xFFFD]))
        = some (Decoded.str [239, 191, 189]) := by
      decide
    rw [mapOption_four _ _ _ _ _ _ _ _ _ d1 d2 d3 d4]
    rfl
  · simp only [Scalar.sameAs]
    norm_num

/-- C9, amended: with the flag on, when the ping, the table checks and all the
queries succeed with scalars a driver can produce, the body is empty as soon as
one scalar cannot be encoded (a NaN or an infinite float64, a timestamp whose
`MarshalJSON` fails).  Otherwise the body decodes to as many results as there
are queries, and the result at position `i` is equal to the scalar the `i`-th
query produced when that scalar is nil, a bool, an integer of magnitude at most
2^53, a finite float64 or a string of valid UTF-8.  Any other integer comes
back as the nearest float64, any string with every byte that starts no valid
encoding replaced by U+FFFD, a byte slice as the string of its base64 text and
a timestamp as the string of the text its `MarshalJSON` returns. -/
theorem C9_round_trip_amended (d : DB σ Scalar) (tables queries : List String)
    (w w1 w2 w3 : World σ) (rs : List Scalar)
    (hping : dbPing d w = (none, w1))
    (htab : checkTables d tables w1 = (none, w2))
    (hrun : runQueries d queries [] w2 = (Except.ok rs, w3))
    (hwf : ∀ v ∈ rs, v.wellFormed = true) :
    ((∃ v ∈ rs, v.toJSON = none) →
      (serve Scalar.toJSON
        { tables := tables, queries := queries, exposeQueryResults := true } d w).1.body = none) ∧
    ((∀ v ∈ rs, v.toJSON ≠ none) →
      ∃ (o : JSONObject) (dec : HealthResponse Decoded),
        (serve Scalar.toJSON
          { tables := tables, queries := queries, exposeQueryResults := true } d w).1.body
          = some o ∧
        decodeResponse o = some dec ∧
        dec.Results.length = queries.length ∧
        ∀ (i : Nat) (hi : i < rs.length), ∃ x : Decoded,
          dec.Results[i]? = some x ∧
          ((rs.get ⟨i, hi⟩).roundTrips = true → (rs.get ⟨i, hi⟩).sameAs x = true) ∧
          (∀ n, rs.get ⟨i, hi⟩ = Scalar.int n →
            ∃ q, nearestFloat64 n = some q ∧ x = Decoded.number q) ∧
          (∀ s, rs.get ⟨i, hi⟩ = Scalar.str s →
            x = Decoded.str (utf8Encode (utf8DecodeLossy 0 s))) ∧
          (∀ b, rs.get ⟨i, hi⟩ = Scalar.bytes b →
            x = Decoded.str (utf8Encode (base64Encode b))) ∧
          (∀ t, rs.get ⟨i, hi⟩ = Scalar.time t →
            ∃ text, t.marshalJSON = some text ∧ x = Decoded.str (utf8Encode text.data))) := by
  have hout : healthz (Config.mk tables queries true) d w
      = (⟨200, ⟨"ok", "", rs⟩⟩, w3) := by
    simp [healthz, hping, htab, hrun, StatusOK]
  have hlen := (runQueries_ok_calls d queries w2 w3 rs hrun).1
  constructor
  · rintro ⟨v, hv, hnone⟩
    simp only [serve, hout]
    exact toJSON_of_not_encoded _ _ (mapOption_none_of_mem _ rs v hv hnone)
  · intro henc
    obtain ⟨items, hitems⟩ := mapOption_some_of_forall Scalar.toJSON rs henc
    have hdecAll : ∀ v ∈ rs, (fun a => (Scalar.toJSON a).bind JSONValue.decode) v ≠ none := by
      intro v hv
      cases hj : v.toJSON with
      | none => exact absurd hj (henc v hv)
      | some j =>
        obtain ⟨x, hx, _⟩ := decode_toJSON v j (hwf v hv) hj
        simp [hj, hx]
    obtain ⟨xs, hxs⟩ := mapOption_some_of_forall _ rs hdecAll
    have hcomp : mapOption JSONValue.decode items = some xs := by
      have := mapOption_bind Scalar.toJSON JSONValue.decode rs
      rw [hitems, hxs] at this
      simpa using this
    refine ⟨[("status", JSONField.value (JSONValue.str "ok"))] ++
        (if ("" : String) = "" then []
         else [("error", JSONField.value (JSONValue.str ""))]) ++
        (if items.isEmpty then [] else [("results", JSONField.array items)]),
      ⟨"ok", "", xs⟩, ?_, ?_, ?_, ?_⟩
    · simp only [serve, hout]
      exact toJSON_of_encoded _ _ items hitems
    · rw [decodeResponse_body, hcomp]
      rfl
    · simp only
      rw [mapOption_length _ rs xs hxs, hlen]
    · intro i hi
      have hget := mapOption_getElem? _ rs xs hxs i hi
      cases hj : (rs.get ⟨i, hi⟩).toJSON with
      | none => exact absurd hj (henc _ (List.get_mem rs i hi))
      | some j =>
        obtain ⟨x, hx, hprops⟩ :=
          decode_toJSON _ j (hwf _ (List.get_mem rs i hi)) hj
        refine ⟨x, ?_, hprops⟩
        simp only at hget ⊢
        rw [hget, hj]
        simpa using hx

/-- Witness of C9 amended: five queries answered by the integer 1, the string
"up", the float64 1.5, the bool true and nil, with the flag on: the body is
written and every decoded result is equal to what its query produced. -/
theorem C9_round_trip_amended_witness :
    ∃ (o : JSONObject) (dec : HealthResponse Decoded),
      (serve Scalar.toJSON
        { tables := ["users"],
          queries := ["SELECT 1", "SELECT 'up'", "SELECT 1.5::float8", "SELECT true",
                      "SELECT NULL"],
          exposeQueryResults := true }
        (stubDB none sampleCount sampleAnswer) World.start).1.body = some o ∧
      decodeResponse o = some dec ∧
      dec.Results.length = 5 ∧
      (∃ x, dec.Results[0]? = some x ∧ (Scalar.int 1).sameAs x = true) ∧
      (∃ x, dec.Results[1]? = some x ∧ (Scalar.str [117, 112]).sameAs x = true) ∧
      (∃ x, dec.Results[2]? = some x ∧
        (Scalar.float (Float64.finite (3 / 2))).sameAs x = true) ∧
      (∃ x, dec.Results[3]? = some x ∧ (Scalar.bool true).sameAs x = true) ∧
      (∃ x, dec.Results[4]? = some x ∧ Scalar.null.sameAs x = true) := by
  obtain ⟨o, dec, hb, hd, hl, hall⟩ :=
    (C9_round_trip_amended (stubDB none sampleCount sampleAnswer)
      ["users"]
      ["SELECT 1", "SELECT 'up'", "SELECT 1.5::float8", "SELECT true", "SELECT NULL"]
      World.start _ _ _
      [Scalar.int 1, Scalar.str [117, 112], Scalar.float (Float64.finite (3 / 2)),
       Scalar.bool true, Scalar.null]
      rfl rfl (by rfl)
      (by
        intro v hv
        simp only [List.mem_cons, List.mem_singleton, List.not_mem_nil, or_false] at hv
        rcases hv with rfl | rfl | rfl | rfl | rfl
        · decide
        · rfl
        · simp [Scalar.wellFormed, nearestFloat64_three_halves]
        · rfl
        · rfl)).2
      (by
        intro v hv
        simp only [List.mem_cons, List.mem_singleton, List.not_mem_nil, or_false] at hv
        rcases hv with rfl | rfl | rfl | rfl | rfl <;> simp [Scalar.toJSON])
  refine ⟨o, dec, hb, hd, hl, ?_, ?_, ?_, ?_, ?_⟩
  · obtain ⟨x, hx, hrt, _⟩ := hall 0 (by decide)
    exact ⟨x, hx, hrt (by decide)⟩
  · obtain ⟨x, hx, hrt, _⟩ := hall 1 (by decide)
    exact ⟨x, hx, hrt (by decide)⟩
  · obtain ⟨x, hx, hrt, _⟩ := hall 2 (by decide)
    exact ⟨x, hx, hrt rfl⟩
  · obtain ⟨x, hx, hrt, _⟩ := hall 3 (by decide)
    exact ⟨x, hx, hrt rfl⟩
  · obtain ⟨x, hx, hrt, _⟩ := hall 4 (by decide)
    exact ⟨x, hx, hrt rfl⟩

end Claims

end PgHealthy
